import Mathlib

-- Verification of bundlemaker.py: a shallow embedding of the resumable
-- acquisition session (session state, persistence gateway, direct read,
-- manual capture, bundle assembler, and the interactive controller loop),
-- together with theorems settling the specification claims.
--
-- Conventions of the embedding:
--   * Python strings are Lean String; bytes are List Nat.
--   * The filesystem and the text codecs are an explicit World record;
--     an operation that would raise an exception in Python is modelled by
--     an Option/Except result (none / .error = exception raised).
--   * os.sep is modelled as "/" (POSIX), so _from_posix is the identity.
--   * The JSON checkpoint file content is modelled by the JVal inductive;
--     a missing or unparsable file is Option.none.

-- =========================
-- Config constants (bundlemaker.py lines 37-72)
-- =========================

def BUNDLE_NAME : String := "bundle.txt"

def STATE_FILE : String := "bundle_state.json"

-- SECTION_END_MARKER = r"\END"
def SECTION_END_MARKER : String := "\\END"

def MODE_AUTO : String := "auto"

def MODE_PASTE : String := "paste"

def MODE_HYBRID : String := "hybrid"

def MODES : List String := [ MODE_HYBRID, MODE_PASTE, MODE_AUTO ]

def AUTO_MAX_BYTES : Nat := 5 * 1024 * 1024

def AUTO_ENCODINGS : List String := ["utf-8", "utf-8-sig", "cp949"]

def AUTO_SKIP_NAMES : List String :=
  [".env", ".env.local", ".env.production", ".env.development",
   "id_rsa", "id_dsa", "id_ed25519"]

def AUTO_SKIP_EXTS : List String :=
  ["pem", "key", "p12", "pfx", "der", "crt", "cer"]

-- =========================
-- Python string primitives (kernel-computable models)
-- =========================

-- str.lower()
def lowerStr (s : String) : String := ⟨s.data.map Char.toLower⟩

-- str.strip() with no argument: strip whitespace from both ends
def pyStrip (s : String) : String :=
  ⟨((s.data.dropWhile Char.isWhitespace).reverse.dropWhile Char.isWhitespace).reverse⟩

-- str.isdigit(): nonempty and all digit characters
def pyIsDigit (s : String) : Bool := s ≠ "" && s.data.all Char.isDigit

-- int(s) for a digit string
def pyToNat (s : String) : Nat :=
  s.data.foldl (fun n c => n * 10 + (c.toNat - '0'.toNat)) 0

-- str.split() with no argument: split on whitespace runs, dropping empties
def pySplitAux : List Char → List Char → List String
  | [], acc => if acc = [] then [] else [⟨acc.reverse⟩]
  | c :: rest, acc =>
    if c.isWhitespace then
      if acc = [] then pySplitAux rest []
      else String.mk acc.reverse :: pySplitAux rest []
    else pySplitAux rest (c :: acc)

def pySplit (s : String) : List String := pySplitAux s.data []

-- str.endswith("\n")
def endswith_nl (s : String) : Bool := s.data.getLast? = some '\n'

-- =========================
-- POSIX path primitives (os.path with os.sep = "/")
-- =========================

-- os.path.join(a, b) for two components on POSIX
def posixJoin (a b : String) : String :=
  if b.data.head? = some '/' then b
  else if a = "" || a.data.getLast? = some '/' then a ++ b
  else a ++ "/" ++ b

-- _to_posix / _from_posix are the identity when os.sep = "/"
def from_posix (p : String) : String := p

-- os.path.basename: the part after the last "/"
def posixBasename (p : String) : String :=
  ⟨(p.data.reverse.takeWhile (fun c => c ≠ '/')).reverse⟩

-- os.path.splitext(name)[1] for a basename: the suffix from the last dot,
-- empty when every character before that dot is itself a dot (CPython
-- skips the leading dots of the file name, so splitext(".env") = (".env",""))
def splitext_ext (name : String) : String :=
  let rest := name.data.dropWhile (fun c => c = '.')
  if rest.contains '.' then ⟨'.' :: (rest.reverse.takeWhile (fun c => c ≠ '.')).reverse⟩
  else ""

-- os.path.splitext(name)[1].lower().lstrip(".")  (bundlemaker.py line 547)
def file_ext (name : String) : String :=
  lowerStr ⟨(splitext_ext name).data.dropWhile (fun c => c = '.')⟩

-- =========================
-- External world: filesystem + codecs
-- =========================

-- Abstraction of the OS facilities used by auto_read_file.  A Python
-- exception is modelled by none (getsize, decode) or .error (readBytes,
-- carrying type(e).__name__).
structure World where
  pathExists : String → Bool
  getsize : String → Option Nat
  readBytes : String → Except String (List Nat)
  decode : String → List Nat → Option String

-- =========================
-- _should_skip_autoread (bundlemaker.py lines 545-561)
-- =========================

-- name stands for os.path.basename(abs_fp), ext for its processed extension
def should_skip_autoread (w : World) (abs_fp : String) : Bool × String :=
  if posixBasename abs_fp ∈ AUTO_SKIP_NAMES then
    (true, "skip-name(" ++ posixBasename abs_fp ++ ")")
  else if file_ext (posixBasename abs_fp) ∈ AUTO_SKIP_EXTS then
    (true, "skip-ext(." ++ file_ext (posixBasename abs_fp) ++ ")")
  else
    match w.getsize abs_fp with
    | some sz => if sz > AUTO_MAX_BYTES then (true, "too-large(" ++ toString sz ++ " bytes)") else (false, "")
    | none => (false, "")

-- =========================
-- auto_read_file (bundlemaker.py lines 564-593)
-- =========================

-- The decoding loop (lines 587-591): try each candidate encoding in order,
-- returning the first successful decode; a decode exception tries the next.
def decode_first (w : World) (data : List Nat) : List String → Option String × String
  | [] => (none, "decode-failed")
  | enc :: rest =>
    match w.decode enc data with
    | some s => (some s, "ok(" ++ enc ++ ")")
    | none => decode_first w data rest

-- abs_fp stands for os.path.join(rel_root, _from_posix(rel_posix_path))
def auto_read_file (w : World) (rel_root rel_posix_path : String) : Option String × String :=
  if ¬ w.pathExists (posixJoin rel_root (from_posix rel_posix_path)) then (none, "not-found")
  else if (should_skip_autoread w (posixJoin rel_root (from_posix rel_posix_path))).1 then
    (none, (should_skip_autoread w (posixJoin rel_root (from_posix rel_posix_path))).2)
  else
    match w.readBytes (posixJoin rel_root (from_posix rel_posix_path)) with
    | Except.error e => (none, "read-failed(" ++ e ++ ")")
    | Except.ok data =>
      if (0 : Nat) ∈ data then (none, "binary-detected(NULL)")
      else decode_first w data AUTO_ENCODINGS

-- =========================
-- capture_section (bundlemaker.py lines 508-542)
-- =========================

-- The input stream is the sequence of strings returned by successive
-- sys.stdin.readline() calls; readline returns "" exactly at EOF, and the
-- end of the Lean list also models EOF.  Only the captured content is
-- modelled (progress printing is presentation only).
def capture_section : List String → String
  | [] => ""
  | line :: rest =>
    if line = "" then ""
    else if pyStrip line = SECTION_END_MARKER then ""
    else line ++ capture_section rest

-- =========================
-- next_undone_index (bundlemaker.py lines 299-306)
-- =========================

-- First loop: for i in range(start, len(done)); second: for i in range(0, start).
-- Every caller in the source passes start < len(done) (so done.getD never
-- hits its default on the paths Python actually indexes).
def next_undone_index (done : List Bool) (start : Nat) : Option Nat :=
  ((List.range' start (done.length - start)).find? (fun i => !done.getD i true)).or
    ((List.range' 0 start).find? (fun i => !done.getD i true))

-- =========================
-- cycle_mode (bundlemaker.py lines 596-598)
-- =========================

def cycle_mode (mode : String) : String :=
  let i := if mode ∈ MODES then MODES.indexOf mode else 0
  MODES.getD ((i + 1) % MODES.length) MODE_HYBRID

-- =========================
-- Python dict as an insertion-ordered association list with unique keys
-- =========================

-- d[k] = v : updates in place when the key exists, else appends
def dictSet (d : List (String × String)) (k v : String) : List (String × String) :=
  if d.any (fun kv => kv.1 = k) then
    d.map (fun kv => if kv.1 = k then (k, v) else kv)
  else d ++ [(k, v)]

-- d.get(k) / k in d
def dget (d : List (String × String)) (k : String) : Option String :=
  match d with
  | [] => none
  | kv :: rest => if kv.1 = k then some kv.2 else dget rest k

def dkeys (d : List (String × String)) : List String := d.map (fun kv => kv.1)

-- =========================
-- JSON values: the shape of the parsed checkpoint file
-- =========================

inductive JVal where
  | null
  | jb (b : Bool)
  | ji (n : Int)
  | js (s : String)
  | ja (xs : List JVal)
  | jo (kvs : List (String × JVal))

-- Python bool(x) truthiness of a JSON-decoded value
def jtruthy : JVal → Bool
  | JVal.null => false
  | JVal.jb b => b
  | JVal.ji n => n ≠ 0
  | JVal.js s => s ≠ ""
  | JVal.ja xs => !xs.isEmpty
  | JVal.jo kvs => !kvs.isEmpty

-- isinstance(x, int) holds for Python bools too; the int value of the field
def jAsInt : JVal → Option Int
  | JVal.ji n => some n
  | JVal.jb b => some (if b then 1 else 0)
  | _ => none

-- Python == between a JSON-decoded value and a str
def jEqStr : JVal → String → Bool
  | JVal.js s, t => s = t
  | _, _ => false

-- Python == between a JSON-decoded value and a list[str]
def jEqStrList : JVal → List String → Bool
  | JVal.ja xs, ss => xs.length = ss.length && (xs.zip ss).all (fun p => jEqStr p.1 p.2)
  | _, _ => false

-- dict.get(k): first (unique) binding; JSON objects have unique keys
def jget (kvs : List (String × JVal)) (k : String) : Option JVal :=
  (kvs.find? (fun kv => kv.1 = k)).map (fun kv => kv.2)

-- dict.get(k, default)
def jgetD (kvs : List (String × JVal)) (k : String) (d : JVal) : JVal :=
  (jget kvs k).getD d

-- =========================
-- save_state (bundlemaker.py lines 326-350): the serialized record
-- =========================

-- The key/value pairs of the JSON object that save_state writes
-- (atomic_write_json of the state dict, field order as in the source).
-- generated_at is the timestamp.
def save_state_fields (files scan_dirs_abs : List String) (rel_root : String)
    (done : List Bool) (contents : List (String × String)) (cursor : Int)
    (show_remaining_only : Bool) (mode : String) (generated_at : String) :
    List (String × JVal) :=
  [("generated_at", JVal.js generated_at),
   ("scan_dirs_abs", JVal.ja (scan_dirs_abs.map JVal.js)),
   ("rel_root", JVal.js rel_root),
   ("files", JVal.ja (files.map JVal.js)),
   ("done", JVal.ja (done.map JVal.jb)),
   ("cursor", JVal.ji cursor),
   ("show_remaining_only", JVal.jb show_remaining_only),
   ("mode", JVal.js mode),
   ("contents", JVal.jo (contents.map (fun kv => (kv.1, JVal.js kv.2))))]

def save_state_record (files scan_dirs_abs : List String) (rel_root : String)
    (done : List Bool) (contents : List (String × String)) (cursor : Int)
    (show_remaining_only : Bool) (mode : String) (generated_at : String) : JVal :=
  JVal.jo (save_state_fields files scan_dirs_abs rel_root done contents cursor
    show_remaining_only mode generated_at)

-- =========================
-- load_state (bundlemaker.py lines 353-397)
-- =========================

-- The lenient per-field normalizations of lines 376-389: a type-mismatched
-- cursor / filter / mode is replaced by its default rather than rejected
def field_cursor (v : JVal) : Int :=
  match jAsInt v with
  | some n => n
  | none => -1

def field_show (v : JVal) : Bool :=
  match v with
  | JVal.jb b => b
  | _ => false

def field_mode (v : JVal) : String :=
  match v with
  | JVal.js m => if m ∈ MODES then m else MODE_HYBRID
  | _ => MODE_HYBRID

-- Line 391: keep only string-valued entries whose key is in the inventory
def filter_contents (files : List String) (contentsKvs : List (String × JVal)) :
    List (String × String) :=
  contentsKvs.filterMap (fun kv =>
    match kv.2 with
    | JVal.js v => if kv.1 ∈ files then some (kv.1, v) else none
    | _ => none)

-- The body of load_state for a parsed JSON object (lines 367-395): the
-- matching-key checks, the strict done/contents checks, the lenient
-- cursor/filter/mode normalizations, the contents filter, the Python
-- bool() coercion of the done flags, and the cursor clamp.
def load_state_obj (kvs : List (String × JVal)) (files scan_dirs_abs : List String)
    (rel_root : String) :
    Option (List Bool × List (String × String) × Int × Bool × String) :=
  if ¬ jEqStrList (jgetD kvs "scan_dirs_abs" JVal.null) scan_dirs_abs then none
  else if ¬ jEqStr (jgetD kvs "rel_root" JVal.null) rel_root then none
  else if ¬ jEqStrList (jgetD kvs "files" JVal.null) files then none
  else
    match jgetD kvs "done" JVal.null, jgetD kvs "contents" JVal.null with
    | JVal.ja doneVs, JVal.jo contentsKvs =>
      if doneVs.length ≠ files.length then none
      else
        some (doneVs.map jtruthy, filter_contents files contentsKvs,
          max (-1) (min (field_cursor (jgetD kvs "cursor" (JVal.ji (-1))))
            ((files.length : Int) - 1)),
          field_show (jgetD kvs "show_remaining_only" (JVal.jb false)),
          field_mode (jgetD kvs "mode" (JVal.js MODE_HYBRID)))
    | _, _ => none

-- stored = none models: STATE_FILE absent, unreadable, or not valid JSON
-- (the try/except swallows everything into None).  A parsed document that
-- is not an object makes state.get raise, likewise caught: none result.
def load_state (stored : Option JVal) (files scan_dirs_abs : List String)
    (rel_root : String) :
    Option (List Bool × List (String × String) × Int × Bool × String) :=
  match stored with
  | none => none
  | some (JVal.jo kvs) => load_state_obj kvs files scan_dirs_abs rel_root
  | some _ => none

-- =========================
-- build_bundle_text (bundlemaker.py lines 601-628)
-- =========================

def header_line (path : String) : String := "=== FILE: " ++ path ++ " ===\n"

def footer_line (path : String) : String := "=== END FILE: " ++ path ++ " ===\n"

def SECTION_GAP : String := "\n"

-- Python string comparison: lexicographic by code point
def charListLt : List Char → List Char → Bool
  | [], [] => false
  | [], _ :: _ => true
  | _ :: _, [] => false
  | c :: cs, d :: ds => c.toNat < d.toNat || (c = d && charListLt cs ds)

def strLt (a b : String) : Bool := charListLt a.data b.data

def strLe (a b : String) : Bool := strLt a b || a = b

-- Python sorted() on (path, reason) pairs: lexicographic pair order, stable
def pairLe (a b : String × String) : Bool :=
  strLt a.1 b.1 || (a.1 = b.1 && strLe a.2 b.2)

def sortedInsert (x : String × String) : List (String × String) → List (String × String)
  | [] => [x]
  | y :: ys => if pairLe x y then x :: y :: ys else y :: sortedInsert x ys

-- Stable sort by pairLe: the result every stable comparison sort (Python
-- included) produces for this order
def pySorted : List (String × String) → List (String × String)
  | [] => []
  | x :: xs => sortedInsert x (pySorted xs)

-- The skip-reasons block of lines 609-613 (skipped nonempty), as the list
-- of appended parts
def skip_block (skipped : List (String × String)) : List String :=
  if skipped ≠ [] then
    "=== SKIPPED (auto-read) ===\n"
      :: ((pySorted skipped).map (fun pw => "- " ++ pw.1 ++ " :: " ++ pw.2 ++ "\n"))
      ++ ["\n"]
  else []

-- The per-file groups of lines 617-626, as the list of appended parts
def bundle_groups (files : List String) (contents : List (String × String)) :
    List String :=
  List.flatten (files.map (fun path =>
    match dget contents path with
    | none => []
    | some body =>
      [header_line path, body]
        ++ (if body ≠ "" ∧ ¬ endswith_nl body then ["\n"] else [])
        ++ [footer_line path, SECTION_GAP]))

-- contents and skipped are insertion-ordered dicts; now is datetime.now()
def build_bundle_text (rel_root : String) (files : List String)
    (contents skipped : List (String × String)) (now : String) : String :=
  String.join
    (["=== BUNDLE GENERATED: " ++ now ++ " ===\n",
      "=== REL_ROOT: " ++ rel_root ++ " ===\n"]
      ++ skip_block skipped ++ ["\n"] ++ bundle_groups files contents)

-- =========================
-- Interactive controller (bundlemaker.py main, lines 685-811)
-- =========================

-- The mutable loop variables of main (files is fixed separately).
-- next_action_override is the one-shot override: some "a" or some "p".
structure SessionState where
  done : List Bool
  contents : List (String × String)
  cursor : Int
  show_remaining_only : Bool
  mode : String
  next_action_override : Option String
deriving DecidableEq, Repr

-- What one loop iteration did (which continue/break path was taken)
inductive Ev where
  | quit
  | quitRefused
  | toggledFilter
  | cycledMode
  | armedAuto
  | armedPaste
  | allDone
  | invalid
  | outOfRange
  | overwriteCancelled
  | autoOk
  | autoFailPend
  | autoFallback
  | pasted
deriving DecidableEq, Repr

-- The acquisition method a loop outcome used: "a" = direct read, "p" = paste
def methodOf : Ev → Option String
  | Ev.autoOk => some "a"
  | Ev.autoFailPend => some "a"
  | Ev.autoFallback => some "a"
  | Ev.pasted => some "p"
  | _ => none

-- Lines 784-808: execute the decided action on the selected index.
-- autoRead abstracts auto_read_file rel_root; ansFallback is the yes/no
-- answer to the HYBRID paste-fallback prompt; captured is what
-- capture_section would return for this file.
-- path stands for files[idx] (the source binds path = files[idx] at line 762)
def run_action (files : List String) (autoRead : String → Option String × String)
    (ansFallback : Bool) (captured : String) (st : SessionState)
    (action : String) (idx : Nat) : SessionState × Ev :=
  if action = "a" then
    match autoRead (files.getD idx "") with
    | (some content, _) =>
      ({ st with contents := dictSet st.contents (files.getD idx "") content,
                 done := st.done.set idx true, cursor := (idx : Int) }, Ev.autoOk)
    | (none, _) =>
      if st.mode = MODE_HYBRID then
        if ansFallback then
          ({ st with contents := dictSet st.contents (files.getD idx "") captured,
                     done := st.done.set idx true, cursor := (idx : Int) }, Ev.autoFallback)
        else (st, Ev.autoFailPend)
      else (st, Ev.autoFailPend)
  else
    ({ st with contents := dictSet st.contents (files.getD idx "") captured,
               done := st.done.set idx true, cursor := (idx : Int) }, Ev.pasted)

-- Lines 757-808: range check, overwrite confirmation, action decision
-- (explicit beats armed override beats active mode), override clearing,
-- then execution.  ansOverwrite answers the overwrite prompt.
def proceedTarget (files : List String) (autoRead : String → Option String × String)
    (ansOverwrite ansFallback : Bool) (captured : String) (st : SessionState)
    (explicitAction : Option String) (idx : Nat) : SessionState × Ev :=
  if files.length ≤ idx then (st, Ev.outOfRange)
  else if st.done.getD idx false && !ansOverwrite then (st, Ev.overwriteCancelled)
  else
    let action :=
      match explicitAction with
      | some a => a
      | none =>
        match st.next_action_override with
        | some o => o
        | none => if st.mode = MODE_PASTE then "p" else "a"
    run_action files autoRead ansFallback captured
      { st with next_action_override := none } action idx

-- One iteration of the while loop (lines 703-811) on a stripped command.
-- ansQuit answers the quit-with-pending prompt.  The caller of
-- next_undone_index divides by len(done), which main guarantees positive.
-- remaining stands for the pending-path list of line 708, parts for
-- cmd.split() of line 739, start for the scan start of line 744
def main_step (files : List String) (autoRead : String → Option String × String)
    (ansQuit ansOverwrite ansFallback : Bool) (captured : String)
    (st : SessionState) (cmd : String) : SessionState × Ev :=
  if lowerStr cmd = "q" then
    if !(((files.zip st.done).filter (fun pd => !pd.2)).map (fun pd => pd.1)).isEmpty
        && !ansQuit then (st, Ev.quitRefused)
    else (st, Ev.quit)
  else if lowerStr cmd = "r" then
    ({ st with show_remaining_only := !st.show_remaining_only }, Ev.toggledFilter)
  else if lowerStr cmd = "m" then
    ({ st with mode := cycle_mode st.mode }, Ev.cycledMode)
  else if lowerStr cmd = "a" then
    ({ st with next_action_override := some "a" }, Ev.armedAuto)
  else if lowerStr cmd = "p" then
    ({ st with next_action_override := some "p" }, Ev.armedPaste)
  else
    if (pySplit cmd).length = 2
        && (lowerStr ((pySplit cmd).getD 0 "") = "a" || lowerStr ((pySplit cmd).getD 0 "") = "p")
        && pyIsDigit ((pySplit cmd).getD 1 "") then
      proceedTarget files autoRead ansOverwrite ansFallback captured st
        (some (lowerStr ((pySplit cmd).getD 0 ""))) (pyToNat ((pySplit cmd).getD 1 ""))
    else if cmd = "" then
      match next_undone_index st.done
        (if st.cursor ≥ 0 then ((st.cursor + 1) % (st.done.length : Int)).toNat else 0) with
      | none => (st, Ev.allDone)
      | some idx =>
        proceedTarget files autoRead ansOverwrite ansFallback captured st none idx
    else if !pyIsDigit cmd then (st, Ev.invalid)
    else proceedTarget files autoRead ansOverwrite ansFallback captured st none (pyToNat cmd)

-- The session states the controller can be in, for a fixed inventory:
-- the fresh state of lines 685-689, everything one loop iteration reaches,
-- and everything rehydrated by load_state from a checkpoint that
-- save_state wrote for the same inventory/scan roots (lines 691-697).
inductive Reachable (files : List String) : SessionState → Prop where
  | fresh (mode : String) :
      Reachable files ⟨List.replicate files.length false, [], -1, false, mode, none⟩
  | step (autoRead : String → Option String × String)
      (ansQuit ansOverwrite ansFallback : Bool) (captured cmd : String)
      (st : SessionState) :
      Reachable files st →
      Reachable files
        (main_step files autoRead ansQuit ansOverwrite ansFallback captured st cmd).1
  | resume (dirs : List String) (rel_root ts : String) (st : SessionState)
      (d : List Bool) (c : List (String × String)) (cur : Int) (sh : Bool) (m : String) :
      Reachable files st →
      load_state
        (some (save_state_record files dirs rel_root st.done st.contents st.cursor
          st.show_remaining_only st.mode ts)) files dirs rel_root = some (d, c, cur, sh, m) →
      Reachable files ⟨d, c, cur, sh, m, none⟩

-- The acquired-iff-content invariant of the session state: flag sequence
-- parallels the inventory, content keys are unique and drawn from the
-- inventory, and a path holds content exactly when its flag is set
def InvC8 (files : List String) (st : SessionState) : Prop :=
  st.done.length = files.length
  ∧ (dkeys st.contents).Nodup
  ∧ (∀ k, k ∈ dkeys st.contents → k ∈ files)
  ∧ (∀ i (h : i < files.length),
      (files[i] ∈ dkeys st.contents ↔ st.done.getD i false = true))

-- =========================
-- Spec-side definitions (formalizing the claims' own words, to be
-- compared with the code-derived definitions above)
-- =========================

-- The claim's description of advance: scan circularly forward from start,
-- visiting every index once, and pick the first pending one.
def spec_circular_scan (done : List Bool) (start : Nat) : Option Nat :=
  ((List.range done.length).map (fun d => (start + d) % done.length)).find?
    (fun i => !done.getD i true)

-- Machine-readable failure classes of auto_read_file reason strings.
-- pfx p s decides whether p is a prefix of s.
def pfx : List Char → List Char → Bool
  | [], _ => true
  | _ :: _, [] => false
  | c :: cs, d :: ds => c = d && pfx cs ds

def reason_class (r : String) : Nat :=
  if r = "not-found" then 0
  else if pfx "skip-name(".data r.data then 1
  else if pfx "skip-ext(.".data r.data then 2
  else if pfx "too-large(".data r.data then 3
  else if pfx "read-failed(".data r.data then 4
  else if r = "binary-detected(NULL)" then 5
  else if r = "decode-failed" then 6
  else if pfx "ok(".data r.data then 7
  else 99

-- The claim's description of one emitted bundle group, as amended: the
-- content is newline-terminated unless it is empty (the source appends a
-- terminator only to nonempty content).
def spec_bundle_group (path body : String) : String :=
  header_line path
    ++ (if body ≠ "" ∧ ¬ endswith_nl body then body ++ "\n" else body)
    ++ footer_line path ++ SECTION_GAP

-- The unamended claim's version: the content always ends with a newline,
-- one being appended whenever it is missing (including for empty content).
def claimed_bundle_group (path body : String) : String :=
  header_line path
    ++ (if ¬ endswith_nl body then body ++ "\n" else body)
    ++ footer_line path ++ SECTION_GAP

-- The header-plus-skip-block part of the assembled bundle
def bundle_prefix (rel_root : String) (skipped : List (String × String)) (now : String) : String :=
  String.join
    (["=== BUNDLE GENERATED: " ++ now ++ " ===\n",
      "=== REL_ROOT: " ++ rel_root ++ " ===\n"]
      ++ skip_block skipped ++ ["\n"])

-- =========================
-- Helper lemmas
-- =========================

theorem foldl_append_shift (l : List String) (a : String) :
    l.foldl (fun r s => r ++ s) a = a ++ l.foldl (fun r s => r ++ s) "" := by
  induction l generalizing a with
  | nil => simp [List.foldl_nil, String.append_empty]
  | cons x xs ih =>
    simp only [List.foldl_cons]
    rw [ih (a ++ x), ih ("" ++ x), String.empty_append, String.append_assoc]

theorem join_cons (s : String) (l : List String) :
    String.join (s :: l) = s ++ String.join l := by
  simp only [String.join, List.foldl_cons]
  rw [foldl_append_shift, String.empty_append]

theorem join_append (l₁ l₂ : List String) :
    String.join (l₁ ++ l₂) = String.join l₁ ++ String.join l₂ := by
  induction l₁ with
  | nil => simp [String.join, String.empty_append]
  | cons x xs ih =>
    rw [List.cons_append, join_cons, join_cons, ih, String.append_assoc]

theorem str_ne_empty_of_data_ne (s : String) (h : s.data ≠ []) : s ≠ "" := by
  intro hs
  exact h (by rw [hs])

-- =========================
-- C9: manual capture semantics
-- =========================

/-- C9: Manual capture semantics.  For every input stream (the sequence of
readline results, in which the empty string occurs only as the end-of-stream
signal, i.e. never as a list element), the captured content is the exact
concatenation, with original line terminators, of all lines strictly before
the first line whose stripped content equals the end-of-section marker; the
marker line is excluded, and when the stream is exhausted without a marker
all lines read so far are returned (end of stream is an implicit
terminator, not an error). -/
theorem c9_capture_section_spec (stream : List String) (hno : "" ∉ stream) :
    capture_section stream =
      String.join (stream.takeWhile (fun l => !(pyStrip l = SECTION_END_MARKER))) := by
  induction stream with
  | nil => rfl
  | cons line rest ih =>
    have hline : line ≠ "" := by
      intro h
      exact hno (by simp [h])
    have hrest : "" ∉ rest := fun h => hno (List.mem_cons_of_mem _ h)
    by_cases hmark : pyStrip line = SECTION_END_MARKER
    · simp [capture_section, hline, hmark, List.takeWhile, String.join]
    · simp only [capture_section, if_neg hline, if_neg hmark, List.takeWhile]
      rw [ih hrest]
      simp [hmark, join_cons]

/-- Witness for C9 at a concrete stream: two content lines, then the marker
line, then a line that must not be captured. -/
theorem c9_capture_section_spec_witness :
    ("" ∉ ["x\n", "y", "\\END\n", "z\n"]) ∧
      capture_section ["x\n", "y", "\\END\n", "z\n"] =
        String.join (["x\n", "y", "\\END\n", "z\n"].takeWhile
          (fun l => !(pyStrip l = SECTION_END_MARKER))) := by
  exact ⟨by decide, c9_capture_section_spec ["x\n", "y", "\\END\n", "z\n"] (by decide)⟩

-- =========================
-- C6: advance selection
-- =========================

theorem circular_index_list (n start : Nat) (h : start < n) :
    (List.range n).map (fun d => (start + d) % n) =
      List.range' start (n - start) ++ List.range' 0 start := by
  apply List.ext_getElem
  · simp only [List.length_map, List.length_range, List.length_append, List.length_range']
    omega
  · intro i h1 h2
    simp only [List.getElem_map, List.getElem_range]
    by_cases hi : i < n - start
    · rw [List.getElem_append_left (by simpa [List.length_range'] using hi)]
      rw [List.getElem_range']
      have hlt : start + i < n := by omega
      rw [Nat.mod_eq_of_lt (by omega)]
      omega
    · rw [List.getElem_append_right (by simp [List.length_range']; omega)]
      rw [List.getElem_range']
      have h3 : n ≤ start + i := by
        simp only [List.length_map, List.length_range] at h1
        omega
      rw [Nat.mod_eq_sub_mod h3, Nat.mod_eq_of_lt (by simp only [List.length_map, List.length_range] at h1; omega)]
      simp only [List.length_range']
      omega

theorem next_undone_eq_spec (done : List Bool) (start : Nat) (h : start < done.length) :
    next_undone_index done start = spec_circular_scan done start := by
  unfold next_undone_index spec_circular_scan
  rw [circular_index_list done.length start h, List.find?_append]

theorem next_undone_none_iff (done : List Bool) (start : Nat) :
    next_undone_index done start = none ↔ ∀ i (hi : i < done.length), done[i] = true := by
  unfold next_undone_index
  rw [Option.or_eq_none]
  constructor
  · rintro ⟨h1, h2⟩ i hi
    rw [List.find?_eq_none] at h1 h2
    by_cases his : start ≤ i
    · have hm : i ∈ List.range' start (done.length - start) := by
        rw [List.mem_range'_1]
        omega
      have := h1 i hm
      simpa [List.getD_eq_getElem?_getD, List.getElem?_eq_getElem hi] using this
    · have hm : i ∈ List.range' 0 start := by
        rw [List.mem_range'_1]
        omega
      have := h2 i hm
      simpa [List.getD_eq_getElem?_getD, List.getElem?_eq_getElem hi] using this
  · intro hall
    constructor <;> rw [List.find?_eq_none] <;> intro x hx <;> rw [List.mem_range'_1] at hx
    · have hxl : x < done.length := by omega
      simp [List.getD_eq_getElem?_getD, List.getElem?_eq_getElem hxl, hall x hxl]
    · by_cases hxl : x < done.length
      · simp [List.getD_eq_getElem?_getD, List.getElem?_eq_getElem hxl, hall x hxl]
      · simp [List.getD_eq_getElem?_getD, List.getElem?_eq_none (by omega : done.length ≤ x)]

theorem main_step_empty_cmd (files : List String)
    (autoRead : String → Option String × String) (aq ao af : Bool) (cap : String)
    (st : SessionState) :
    main_step files autoRead aq ao af cap st "" =
      (match next_undone_index st.done
          (if st.cursor ≥ 0 then ((st.cursor + 1) % (st.done.length : Int)).toNat else 0) with
        | none => (st, Ev.allDone)
        | some idx => proceedTarget files autoRead ao af cap st none idx) := rfl

/-- C6: the advance command (empty input) selects the first pending entry
scanning circularly forward from cursor+1 (starting at 0 when the cursor is
unset, i.e. negative): next_undone_index agrees with the circular-scan
specification at the start index the loop computes; and when no pending
entry exists the loop iteration leaves the state unchanged and reports
completion (Ev.allDone) rather than treating it as an error; when a pending
entry exists, the iteration proceeds to acquire exactly the selected one. -/
theorem c6_advance_selection (files : List String)
    (autoRead : String → Option String × String) (aq ao af : Bool) (cap : String)
    (st : SessionState) (hn : 0 < st.done.length) :
    (next_undone_index st.done
        (if st.cursor ≥ 0 then ((st.cursor + 1) % (st.done.length : Int)).toNat else 0) =
      spec_circular_scan st.done
        (if st.cursor ≥ 0 then ((st.cursor + 1) % (st.done.length : Int)).toNat else 0))
    ∧ ((∀ i (hi : i < st.done.length), st.done[i] = true) →
        main_step files autoRead aq ao af cap st "" = (st, Ev.allDone))
    ∧ (∀ idx, next_undone_index st.done
          (if st.cursor ≥ 0 then ((st.cursor + 1) % (st.done.length : Int)).toNat else 0) = some idx →
        main_step files autoRead aq ao af cap st "" =
          proceedTarget files autoRead ao af cap st none idx) := by
  have hstart : (if st.cursor ≥ 0 then ((st.cursor + 1) % (st.done.length : Int)).toNat else 0)
      < st.done.length := by
    by_cases h0 : st.cursor ≥ 0
    · simp only [if_pos h0]
      have h1 : 0 ≤ (st.cursor + 1) % (st.done.length : Int) :=
        Int.emod_nonneg _ (by omega)
      have h2 : (st.cursor + 1) % (st.done.length : Int) < (st.done.length : Int) :=
        Int.emod_lt_of_pos _ (by omega)
      omega
    · simp only [if_neg h0]
      omega
  refine ⟨next_undone_eq_spec st.done _ hstart, ?_, ?_⟩
  · intro hall
    rw [main_step_empty_cmd]
    rw [(next_undone_none_iff st.done _).mpr hall]
  · intro idx hidx
    rw [main_step_empty_cmd, hidx]

/-- Witness for C6: two files, first done, cursor on entry 0; advance picks
entry 1 and the loop proceeds on it. -/
theorem c6_advance_selection_witness :
    (0 < ([true, false] : List Bool).length ∧
      next_undone_index [true, false]
        (if (0 : Int) ≥ 0 then (((0 : Int) + 1) % (([true, false] : List Bool).length : Int)).toNat else 0) = some 1) ∧
    main_step ["a.py", "b.py"] (fun _ => (none, "not-found")) false false false "C"
        ⟨[true, false], [("a.py", "X")], 0, false, "hybrid", none⟩ "" =
      proceedTarget ["a.py", "b.py"] (fun _ => (none, "not-found")) false false "C"
        ⟨[true, false], [("a.py", "X")], 0, false, "hybrid", none⟩ none 1 := by
  refine ⟨⟨by decide, by decide⟩, ?_⟩
  exact (c6_advance_selection ["a.py", "b.py"] (fun _ => (none, "not-found")) false false false "C"
    ⟨[true, false], [("a.py", "X")], 0, false, "hybrid", none⟩ (by decide)).2.2 1 (by decide)

theorem run_action_override_preserved (files : List String)
    (autoRead : String → Option String × String) (ansF : Bool) (cap : String)
    (st : SessionState) (action : String) (idx : Nat) :
    (run_action files autoRead ansF cap st action idx).1.next_action_override =
      st.next_action_override := by
  unfold run_action
  rcases autoRead (files.getD idx "") with ⟨c | c, why⟩ <;> split_ifs <;> rfl

theorem methodOf_run_action (files : List String)
    (autoRead : String → Option String × String) (ansF : Bool) (cap : String)
    (st : SessionState) (action : String) (idx : Nat) :
    methodOf (run_action files autoRead ansF cap st action idx).2 =
      some (if action = "a" then "a" else "p") := by
  unfold run_action
  rcases autoRead (files.getD idx "") with ⟨c | c, why⟩ <;> split_ifs <;> rfl

theorem proceedTarget_exec (files : List String)
    (autoRead : String → Option String × String) (ansO ansF : Bool) (cap : String)
    (st : SessionState) (explicitA : Option String) (idx : Nat)
    (h1 : idx < files.length)
    (h2 : st.done.getD idx false = false ∨ ansO = true) :
    proceedTarget files autoRead ansO ansF cap st explicitA idx =
      run_action files autoRead ansF cap { st with next_action_override := none }
        (match explicitA with
          | some a => a
          | none =>
            match st.next_action_override with
            | some o => o
            | none => if st.mode = MODE_PASTE then "p" else "a") idx := by
  unfold proceedTarget
  have hr : ¬ files.length ≤ idx := by omega
  have hg : (st.done.getD idx false && !ansO) = false := by
    rcases h2 with h | h
    · rw [h]
      simp
    · rw [h]
      simp
  rw [if_neg hr]
  simp only [hg, Bool.false_eq_true, if_false]

-- =========================
-- C1: fallback policy on failed direct read
-- =========================

/-- C1: fallback policy when a direct read produces no content during the
interactive loop (run_action with action "a" is the execution step of main,
lines 784-801).  In AUTO mode the entry is left pending and no manual
fallback is consulted: for every possible prompt answer and captured text
the state is returned unchanged.  In HYBRID mode the explicit yes/no opt-in
answer decides: yes performs manual capture for exactly this entry (content
stored, flag set, cursor moved), no leaves the state unchanged. -/
theorem c1_fallback_policy (files : List String)
    (autoRead : String → Option String × String) (st : SessionState) (idx : Nat)
    (why : String) (hfail : autoRead (files.getD idx "") = (none, why)) :
    (st.mode = MODE_AUTO →
      ∀ ansFallback captured,
        run_action files autoRead ansFallback captured st "a" idx = (st, Ev.autoFailPend))
    ∧ (st.mode = MODE_HYBRID →
        ∀ captured,
          (run_action files autoRead true captured st "a" idx =
            ({ st with contents := dictSet st.contents (files.getD idx "") captured,
                       done := st.done.set idx true, cursor := (idx : Int) }, Ev.autoFallback))
          ∧ run_action files autoRead false captured st "a" idx = (st, Ev.autoFailPend)) := by
  constructor
  · intro hmode ansFallback captured
    have hne : st.mode ≠ MODE_HYBRID := by
      rw [hmode]
      decide
    unfold run_action
    rw [if_pos rfl, hfail]
    simp [hne]
  · intro hmode captured
    constructor
    · unfold run_action
      rw [if_pos rfl, hfail]
      simp [hmode]
    · unfold run_action
      rw [if_pos rfl, hfail]
      simp [hmode]

/-- Witness for C1 at a concrete failing read: in AUTO mode the entry stays
pending even when the fallback answer is yes; in HYBRID mode yes captures
and no leaves the state unchanged. -/
theorem c1_fallback_policy_witness :
    (run_action ["a.py"] (fun _ => (none, "not-found")) true "CAP"
        ⟨[false], [], -1, false, "auto", none⟩ "a" 0 =
      (⟨[false], [], -1, false, "auto", none⟩, Ev.autoFailPend)) ∧
    (run_action ["a.py"] (fun _ => (none, "not-found")) true "CAP"
        ⟨[false], [], -1, false, "hybrid", none⟩ "a" 0 =
      (⟨[true], [("a.py", "CAP")], 0, false, "hybrid", none⟩, Ev.autoFallback)) ∧
    (run_action ["a.py"] (fun _ => (none, "not-found")) false "CAP"
        ⟨[false], [], -1, false, "hybrid", none⟩ "a" 0 =
      (⟨[false], [], -1, false, "hybrid", none⟩, Ev.autoFailPend)) := by
  have h := c1_fallback_policy ["a.py"] (fun _ => (none, "not-found"))
    ⟨[false], [], -1, false, "auto", none⟩ 0 "not-found" rfl
  have h2 := (c1_fallback_policy ["a.py"] (fun _ => (none, "not-found"))
    ⟨[false], [], -1, false, "hybrid", none⟩ 0 "not-found" rfl).2 rfl "CAP"
  refine ⟨h.1 rfl true "CAP", ?_, h2.2⟩
  rw [h2.1]
  decide

-- =========================
-- C7: one-shot override
-- =========================

/-- C7: the one-shot override.  For a selected in-range entry (with the
overwrite guard passed and no explicit per-command method), the effective
acquisition method is the armed override when present, else manual capture
when the active mode is PASTE, else direct read, covering both AUTO and
HYBRID active modes; and the override is cleared once the entry is selected
for acquisition, so it applies to exactly one entry. -/
theorem c7_one_shot_override (files : List String)
    (autoRead : String → Option String × String) (ansO ansF : Bool) (cap : String)
    (st : SessionState) (idx : Nat) (hidx : idx < files.length)
    (hdone : st.done.getD idx false = false ∨ ansO = true) :
    ((proceedTarget files autoRead ansO ansF cap st none idx).1.next_action_override = none)
    ∧ (st.next_action_override = some "a" →
        methodOf (proceedTarget files autoRead ansO ansF cap st none idx).2 = some "a")
    ∧ (st.next_action_override = some "p" →
        methodOf (proceedTarget files autoRead ansO ansF cap st none idx).2 = some "p")
    ∧ (st.next_action_override = none → st.mode = MODE_PASTE →
        methodOf (proceedTarget files autoRead ansO ansF cap st none idx).2 = some "p")
    ∧ (st.next_action_override = none → st.mode ≠ MODE_PASTE →
        methodOf (proceedTarget files autoRead ansO ansF cap st none idx).2 = some "a") := by
  have hexec := proceedTarget_exec files autoRead ansO ansF cap st none idx hidx hdone
  refine ⟨?_, ?_, ?_, ?_, ?_⟩
  · rw [hexec, run_action_override_preserved]
  · intro h
    rw [hexec, h, methodOf_run_action]
    rfl
  · intro h
    rw [hexec, h, methodOf_run_action]
    rfl
  · intro h hmode
    rw [hexec, h, hmode, methodOf_run_action]
    rfl
  · intro h hmode
    rw [hexec, h, methodOf_run_action]
    rw [if_neg hmode]
    rfl

/-- Witness for C7: armed paste override on a hybrid-mode state beats the
active mode and is cleared by the step. -/
theorem c7_one_shot_override_witness :
    ((proceedTarget ["a.py"] (fun _ => (some "X", "ok(utf-8)")) true true "C"
        ⟨[false], [], -1, false, "hybrid", some "p"⟩ none 0).1.next_action_override = none)
    ∧ methodOf (proceedTarget ["a.py"] (fun _ => (some "X", "ok(utf-8)")) true true "C"
        ⟨[false], [], -1, false, "hybrid", some "p"⟩ none 0).2 = some "p" := by
  have h := c7_one_shot_override ["a.py"] (fun _ => (some "X", "ok(utf-8)")) true true "C"
    ⟨[false], [], -1, false, "hybrid", some "p"⟩ 0 (by decide) (Or.inl (by decide))
  exact ⟨h.1, h.2.2.1 rfl⟩

-- =========================
-- C10 / C5 helper lemmas about auto_read_file
-- =========================

theorem decode_first_none (w : World) (data : List Nat) (encs : List String)
    (h : (decode_first w data encs).1 = none) :
    decode_first w data encs = (none, "decode-failed") := by
  induction encs with
  | nil => rfl
  | cons enc rest ih =>
    unfold decode_first at h ⊢
    rcases hd : w.decode enc data with _ | s
    · rw [hd] at h
      exact ih h
    · rw [hd] at h
      simp at h

theorem should_skip_spec (w : World) (fp : String) :
    should_skip_autoread w fp = (false, "")
    ∨ (∃ n, should_skip_autoread w fp = (true, "skip-name(" ++ n ++ ")"))
    ∨ (∃ e, should_skip_autoread w fp = (true, "skip-ext(." ++ e ++ ")"))
    ∨ (∃ sz : Nat, should_skip_autoread w fp = (true, "too-large(" ++ toString sz ++ " bytes)")) := by
  unfold should_skip_autoread
  split_ifs with h1 h2
  · right
    left
    exact ⟨_, rfl⟩
  · right
    right
    left
    exact ⟨_, rfl⟩
  · rcases w.getsize fp with _ | sz
    · left
      rfl
    · by_cases h3 : sz > AUTO_MAX_BYTES
      · right
        right
        right
        exact ⟨sz, if_pos h3⟩
      · left
        exact if_neg h3

theorem should_skip_reason_nonempty (w : World) (fp : String)
    (h : (should_skip_autoread w fp).1 = true) :
    (should_skip_autoread w fp).2 ≠ "" := by
  rcases should_skip_spec w fp with hs | ⟨n, hs⟩ | ⟨e, hs⟩ | ⟨sz, hs⟩
  · rw [hs] at h
    simp at h
  all_goals
    rw [hs]
    intro hc
    have := congrArg String.data hc
    simp at this

theorem read_failed_reason_nonempty (e : String) : ("read-failed(" ++ e ++ ")") ≠ "" := by
  intro hc
  have := congrArg String.data hc
  simp at this

theorem auto_read_fail_reason_nonempty (w : World) (root p : String)
    (hnone : (auto_read_file w root p).1 = none) :
    (auto_read_file w root p).2 ≠ "" := by
  by_cases hex : w.pathExists (posixJoin root (from_posix p)) = true
  · by_cases hskip : (should_skip_autoread w (posixJoin root (from_posix p))).1 = true
    · have heq : auto_read_file w root p =
          (none, (should_skip_autoread w (posixJoin root (from_posix p))).2) := by
        unfold auto_read_file
        rw [if_neg (by simp [hex]), if_pos hskip]
      rw [heq]
      exact should_skip_reason_nonempty w _ hskip
    · rcases hr : w.readBytes (posixJoin root (from_posix p)) with e | data
      · have heq : auto_read_file w root p = (none, "read-failed(" ++ e ++ ")") := by
          unfold auto_read_file
          rw [if_neg (by simp [hex]), if_neg hskip, hr]
        rw [heq]
        exact read_failed_reason_nonempty e
      · by_cases hz : (0 : Nat) ∈ data
        · have heq : auto_read_file w root p = (none, "binary-detected(NULL)") := by
            unfold auto_read_file
            rw [if_neg (by simp [hex]), if_neg hskip, hr]
            exact if_pos hz
          rw [heq]
          decide
        · have heq : auto_read_file w root p = decode_first w data AUTO_ENCODINGS := by
            unfold auto_read_file
            rw [if_neg (by simp [hex]), if_neg hskip, hr]
            exact if_neg hz
          rw [heq] at hnone ⊢
          rw [decode_first_none w data AUTO_ENCODINGS hnone]
          decide
  · have heq : auto_read_file w root p = (none, "not-found") := by
      unfold auto_read_file
      rw [if_pos hex]
    rw [heq]
    decide

-- =========================
-- C10: totality of direct read
-- =========================

/-- C10: auto_read_file is total and never silent.  Every failure carries a
nonempty reason string; a read exception (modelled by an error result of
readBytes, carrying the exception type name) is converted into the
catch-all read-failed reason naming that type; and a getsize exception does
not make the skip check fail (the file is simply not size-skipped), so the
caller always receives either decoded content or a reason. -/
theorem c10_auto_read_total (w : World) (root p : String) :
    ((auto_read_file w root p).1 = none → (auto_read_file w root p).2 ≠ "")
    ∧ (∀ e, w.pathExists (posixJoin root (from_posix p)) = true →
        (should_skip_autoread w (posixJoin root (from_posix p))).1 = false →
        w.readBytes (posixJoin root (from_posix p)) = Except.error e →
        auto_read_file w root p = (none, "read-failed(" ++ e ++ ")"))
    ∧ (posixBasename (posixJoin root (from_posix p)) ∉ AUTO_SKIP_NAMES →
        file_ext (posixBasename (posixJoin root (from_posix p))) ∉ AUTO_SKIP_EXTS →
        w.getsize (posixJoin root (from_posix p)) = none →
        should_skip_autoread w (posixJoin root (from_posix p)) = (false, "")) := by
  refine ⟨auto_read_fail_reason_nonempty w root p, ?_, ?_⟩
  · intro e hex hskip hread
    unfold auto_read_file
    rw [if_neg (by simp [hex]), if_neg (by simp [hskip]), hread]
  · intro h1 h2 h3
    unfold should_skip_autoread
    rw [if_neg h1, if_neg h2, h3]

/-- Witness for C10: a world whose read raises OSError yields the catch-all
reason; a world whose getsize raises is not size-skipped. -/
theorem c10_auto_read_total_witness :
    (auto_read_file
        ⟨fun _ => true, fun _ => none, fun _ => Except.error "OSError", fun _ _ => none⟩
        "/r" "x.py" = (none, "read-failed(OSError)"))
    ∧ should_skip_autoread
        ⟨fun _ => true, fun _ => none, fun _ => Except.error "OSError", fun _ _ => none⟩
        "/r/x.py" = (false, "") := by
  have h := c10_auto_read_total
    ⟨fun _ => true, fun _ => none, fun _ => Except.error "OSError", fun _ _ => none⟩ "/r" "x.py"
  exact ⟨h.2.1 "OSError" rfl (by decide) rfl, h.2.2 (by decide) (by decide) rfl⟩

-- Reason classification of the parameterized failure reasons
theorem reason_class_skip_name (n : String) :
    reason_class ("skip-name(" ++ n ++ ")") = 1 := by
  simp [reason_class, pfx, String.ext_iff]

theorem reason_class_skip_ext (e : String) :
    reason_class ("skip-ext(." ++ e ++ ")") = 2 := by
  simp [reason_class, pfx, String.ext_iff]

theorem reason_class_too_large (sz : Nat) :
    reason_class ("too-large(" ++ toString sz ++ " bytes)") = 3 := by
  simp [reason_class, pfx, String.ext_iff]

theorem reason_class_read_failed (e : String) :
    reason_class ("read-failed(" ++ e ++ ")") = 4 := by
  simp [reason_class, pfx, String.ext_iff]

theorem reason_class_ok_enc (enc : String) :
    reason_class ("ok(" ++ enc ++ ")") = 7 := by
  simp [reason_class, pfx, String.ext_iff]

theorem decode_first_cons_some (w : World) (data : List Nat) (enc : String)
    (rest : List String) (s : String) (h : w.decode enc data = some s) :
    decode_first w data (enc :: rest) = (some s, "ok(" ++ enc ++ ")") := by
  unfold decode_first
  rw [h]

theorem decode_first_cons_none (w : World) (data : List Nat) (enc : String)
    (rest : List String) (h : w.decode enc data = none) :
    decode_first w data (enc :: rest) = decode_first w data rest := by
  conv_lhs => unfold decode_first
  rw [h]

-- =========================
-- C5: direct read check order and distinct failure reasons
-- =========================

/-- C5: auto_read_file checks in order: absent file (not-found); then,
before opening, name on the exclusion list (name-specific reason),
extension on the exclusion list (extension-specific reason), size over the
byte ceiling (size reason); then raw bytes are read and a null byte fails
with the binary reason; otherwise the candidate encodings are attempted in
order, returning the first successful decode and failing with the decode
reason when all fail.  Every failure reason is nonempty, and reason_class
sends each failure shape to a distinct class (0,1,2,3,5,6). -/
theorem c5_auto_read_check_order (w : World) (root p : String) :
    (w.pathExists (posixJoin root (from_posix p)) = false →
      auto_read_file w root p = (none, "not-found") ∧ reason_class "not-found" = 0)
    ∧ (w.pathExists (posixJoin root (from_posix p)) = true →
        posixBasename (posixJoin root (from_posix p)) ∈ AUTO_SKIP_NAMES →
        auto_read_file w root p =
          (none, "skip-name(" ++ posixBasename (posixJoin root (from_posix p)) ++ ")")
        ∧ reason_class
            ("skip-name(" ++ posixBasename (posixJoin root (from_posix p)) ++ ")") = 1)
    ∧ (w.pathExists (posixJoin root (from_posix p)) = true →
        posixBasename (posixJoin root (from_posix p)) ∉ AUTO_SKIP_NAMES →
        file_ext (posixBasename (posixJoin root (from_posix p))) ∈ AUTO_SKIP_EXTS →
        auto_read_file w root p =
          (none, "skip-ext(." ++ file_ext (posixBasename (posixJoin root (from_posix p))) ++ ")")
        ∧ reason_class
            ("skip-ext(." ++ file_ext (posixBasename (posixJoin root (from_posix p))) ++ ")") = 2)
    ∧ (w.pathExists (posixJoin root (from_posix p)) = true →
        posixBasename (posixJoin root (from_posix p)) ∉ AUTO_SKIP_NAMES →
        file_ext (posixBasename (posixJoin root (from_posix p))) ∉ AUTO_SKIP_EXTS →
        ∀ sz : Nat, w.getsize (posixJoin root (from_posix p)) = some sz →
        sz > AUTO_MAX_BYTES →
        auto_read_file w root p = (none, "too-large(" ++ toString sz ++ " bytes)")
        ∧ reason_class ("too-large(" ++ toString sz ++ " bytes)") = 3)
    ∧ (w.pathExists (posixJoin root (from_posix p)) = true →
        (should_skip_autoread w (posixJoin root (from_posix p))).1 = false →
        ∀ data, w.readBytes (posixJoin root (from_posix p)) = Except.ok data →
        (0 : Nat) ∈ data →
        auto_read_file w root p = (none, "binary-detected(NULL)")
        ∧ reason_class "binary-detected(NULL)" = 5)
    ∧ (w.pathExists (posixJoin root (from_posix p)) = true →
        (should_skip_autoread w (posixJoin root (from_posix p))).1 = false →
        ∀ data, w.readBytes (posixJoin root (from_posix p)) = Except.ok data →
        (0 : Nat) ∉ data →
        (∀ s, w.decode "utf-8" data = some s →
          auto_read_file w root p = (some s, "ok(utf-8)"))
        ∧ (w.decode "utf-8" data = none → ∀ s, w.decode "utf-8-sig" data = some s →
            auto_read_file w root p = (some s, "ok(utf-8-sig)"))
        ∧ (w.decode "utf-8" data = none → w.decode "utf-8-sig" data = none →
            ∀ s, w.decode "cp949" data = some s →
            auto_read_file w root p = (some s, "ok(cp949)"))
        ∧ (w.decode "utf-8" data = none → w.decode "utf-8-sig" data = none →
            w.decode "cp949" data = none →
            auto_read_file w root p = (none, "decode-failed")
            ∧ reason_class "decode-failed" = 6))
    ∧ ((auto_read_file w root p).1 = none → (auto_read_file w root p).2 ≠ "") := by
  refine ⟨?_, ?_, ?_, ?_, ?_, ?_, auto_read_fail_reason_nonempty w root p⟩
  · intro hex
    refine ⟨?_, by decide⟩
    unfold auto_read_file
    rw [if_pos (by simp [hex])]
  · intro hex hname
    have hsk : should_skip_autoread w (posixJoin root (from_posix p)) =
        (true, "skip-name(" ++ posixBasename (posixJoin root (from_posix p)) ++ ")") := by
      unfold should_skip_autoread
      rw [if_pos hname]
    refine ⟨?_, reason_class_skip_name _⟩
    unfold auto_read_file
    rw [if_neg (by simp [hex]), hsk]
    rfl
  · intro hex hname hext
    have hsk : should_skip_autoread w (posixJoin root (from_posix p)) =
        (true, "skip-ext(." ++ file_ext (posixBasename (posixJoin root (from_posix p))) ++ ")") := by
      unfold should_skip_autoread
      rw [if_neg hname, if_pos hext]
    refine ⟨?_, reason_class_skip_ext _⟩
    unfold auto_read_file
    rw [if_neg (by simp [hex]), hsk]
    rfl
  · intro hex hname hext sz hsz hgt
    have hsk : should_skip_autoread w (posixJoin root (from_posix p)) =
        (true, "too-large(" ++ toString sz ++ " bytes)") := by
      unfold should_skip_autoread
      rw [if_neg hname, if_neg hext, hsz]
      exact if_pos hgt
    refine ⟨?_, reason_class_too_large sz⟩
    unfold auto_read_file
    rw [if_neg (by simp [hex]), hsk]
    rfl
  · intro hex hskip data hread hz
    refine ⟨?_, by decide⟩
    unfold auto_read_file
    rw [if_neg (by simp [hex]), if_neg (by simp [hskip]), hread]
    exact if_pos hz
  · intro hex hskip data hread hz
    have harf : auto_read_file w root p = decode_first w data AUTO_ENCODINGS := by
      unfold auto_read_file
      rw [if_neg (by simp [hex]), if_neg (by simp [hskip]), hread]
      exact if_neg hz
    have hencs : AUTO_ENCODINGS = "utf-8" :: "utf-8-sig" :: "cp949" :: [] := rfl
    refine ⟨?_, ?_, ?_, ?_⟩
    · intro s h1
      rw [harf, hencs, decode_first_cons_some w data _ _ s h1]
      simp
    · intro h1 s h2
      rw [harf, hencs, decode_first_cons_none w data _ _ h1,
        decode_first_cons_some w data _ _ s h2]
      simp
    · intro h1 h2 s h3
      rw [harf, hencs, decode_first_cons_none w data _ _ h1,
        decode_first_cons_none w data _ _ h2, decode_first_cons_some w data _ _ s h3]
      simp
    · intro h1 h2 h3
      refine ⟨?_, by decide⟩
      rw [harf, hencs, decode_first_cons_none w data _ _ h1,
        decode_first_cons_none w data _ _ h2, decode_first_cons_none w data _ _ h3]
      rfl

/-- Witness for C5: a name-excluded dotfile, an oversized file, and a
successful first-encoding decode, at concrete worlds. -/
theorem c5_auto_read_check_order_witness :
    (auto_read_file
        ⟨fun _ => true, fun _ => some 10, fun _ => Except.ok [65], fun _ _ => none⟩
        "/r" "sub/.env" =
      (none, "skip-name(" ++ posixBasename (posixJoin "/r" (from_posix "sub/.env")) ++ ")")
      ∧ reason_class
          ("skip-name(" ++ posixBasename (posixJoin "/r" (from_posix "sub/.env")) ++ ")") = 1)
    ∧ (auto_read_file
        ⟨fun _ => true, fun _ => some 6291456, fun _ => Except.ok [65], fun _ _ => none⟩
        "/r" "big.py" =
      (none, "too-large(" ++ toString (6291456 : Nat) ++ " bytes)")
      ∧ reason_class ("too-large(" ++ toString (6291456 : Nat) ++ " bytes)") = 3)
    ∧ auto_read_file
        ⟨fun _ => true, fun _ => some 2, fun _ => Except.ok [65, 66],
          fun enc d => if enc = "utf-8" && d = [65, 66] then some "AB" else none⟩
        "/r" "ok.py" = (some "AB", "ok(utf-8)") := by
  refine ⟨?_, ?_, ?_⟩
  · exact (c5_auto_read_check_order
      ⟨fun _ => true, fun _ => some 10, fun _ => Except.ok [65], fun _ _ => none⟩
      "/r" "sub/.env").2.1 rfl (by decide)
  · exact (c5_auto_read_check_order
      ⟨fun _ => true, fun _ => some 6291456, fun _ => Except.ok [65], fun _ _ => none⟩
      "/r" "big.py").2.2.2.1 rfl (by decide) (by decide) 6291456 rfl (by decide)
  · exact ((c5_auto_read_check_order
      ⟨fun _ => true, fun _ => some 2, fun _ => Except.ok [65, 66],
        fun enc d => if enc = "utf-8" && d = [65, 66] then some "AB" else none⟩
      "/r" "ok.py").2.2.2.2.2.1 rfl (by decide) [65, 66] rfl (by decide)).1 "AB" (by decide)

-- =========================
-- C2 / C3 helper lemmas about the persistence gateway
-- =========================

theorem jEqStr_iff (s t : String) : jEqStr (JVal.js s) t = true ↔ s = t := by
  simp [jEqStr]

theorem all_zip_js_iff (xs : List String) : ∀ (ys : List String), xs.length = ys.length →
    ((((xs.map JVal.js).zip ys).all fun p => jEqStr p.1 p.2) = true ↔ xs = ys) := by
  induction xs with
  | nil =>
    intro ys h
    cases ys with
    | nil => simp
    | cons y yt => simp at h
  | cons x xt ih =>
    intro ys h
    cases ys with
    | nil => simp at h
    | cons y yt =>
      simp only [List.map_cons, List.zip_cons_cons, List.all_cons, Bool.and_eq_true]
      rw [ih yt (by simpa using h)]
      constructor
      · rintro ⟨h1, h2⟩
        have hx : x = y := by simpa [jEqStr] using h1
        rw [hx, h2]
      · intro h2
        injection h2 with ha hb
        exact ⟨by simp [jEqStr, ha], hb⟩

theorem jEqStrList_iff (l l2 : List String) :
    jEqStrList (JVal.ja (l.map JVal.js)) l2 = true ↔ l = l2 := by
  simp only [jEqStrList, Bool.and_eq_true]
  constructor
  · rintro ⟨h1, h2⟩
    have hlen : l.length = l2.length := by simpa using h1
    exact (all_zip_js_iff l l2 hlen).mp h2
  · rintro rfl
    exact ⟨by simp, (all_zip_js_iff l l (by simp)).mpr rfl⟩

theorem jEqStrList_self (l : List String) :
    jEqStrList (JVal.ja (l.map JVal.js)) l = true := (jEqStrList_iff l l).mpr rfl

theorem map_jtruthy_jb (done : List Bool) : (done.map JVal.jb).map jtruthy = done := by
  induction done with
  | nil => rfl
  | cons b bs ih => simp [jtruthy, ih]

theorem filter_contents_id (files : List String) (contents : List (String × String))
    (h : ∀ kv ∈ contents, kv.1 ∈ files) :
    filter_contents files (contents.map (fun kv => (kv.1, JVal.js kv.2))) = contents := by
  induction contents with
  | nil => rfl
  | cons kv rest ih =>
    have hk : kv.1 ∈ files := h kv (by simp)
    simp only [filter_contents, List.map_cons, List.filterMap_cons, hk, if_pos]
    rw [← filter_contents]
    rw [ih (fun x hx => h x (by simp [hx]))]

theorem field_mode_of_mem (mode : String) (h : mode ∈ MODES) :
    field_mode (JVal.js mode) = mode := if_pos h

theorem load_state_of_save (files dirs : List String) (rel : String) (done : List Bool)
    (contents : List (String × String)) (cursor : Int) (sro : Bool) (mode ts : String)
    (hlen : done.length = files.length) :
    load_state (some (save_state_record files dirs rel done contents cursor sro mode ts))
        files dirs rel =
      some (done, filter_contents files (contents.map (fun kv => (kv.1, JVal.js kv.2))),
        max (-1) (min cursor ((files.length : Int) - 1)), sro, field_mode (JVal.js mode)) := by
  have hred : load_state (some (save_state_record files dirs rel done contents cursor sro mode ts))
      files dirs rel =
      load_state_obj (save_state_fields files dirs rel done contents cursor sro mode ts)
        files dirs rel := rfl
  rw [hred]
  have escan : jgetD (save_state_fields files dirs rel done contents cursor sro mode ts)
      "scan_dirs_abs" JVal.null = JVal.ja (dirs.map JVal.js) := rfl
  have erel : jgetD (save_state_fields files dirs rel done contents cursor sro mode ts)
      "rel_root" JVal.null = JVal.js rel := rfl
  have efiles : jgetD (save_state_fields files dirs rel done contents cursor sro mode ts)
      "files" JVal.null = JVal.ja (files.map JVal.js) := rfl
  have edone : jgetD (save_state_fields files dirs rel done contents cursor sro mode ts)
      "done" JVal.null = JVal.ja (done.map JVal.jb) := rfl
  have econtents : jgetD (save_state_fields files dirs rel done contents cursor sro mode ts)
      "contents" JVal.null = JVal.jo (contents.map (fun kv => (kv.1, JVal.js kv.2))) := rfl
  have ecursor : jgetD (save_state_fields files dirs rel done contents cursor sro mode ts)
      "cursor" (JVal.ji (-1)) = JVal.ji cursor := rfl
  have eshow : jgetD (save_state_fields files dirs rel done contents cursor sro mode ts)
      "show_remaining_only" (JVal.jb false) = JVal.jb sro := rfl
  have emode : jgetD (save_state_fields files dirs rel done contents cursor sro mode ts)
      "mode" (JVal.js MODE_HYBRID) = JVal.js mode := rfl
  unfold load_state_obj
  rw [escan, erel, efiles, edone, econtents, ecursor, eshow, emode]
  rw [if_neg (by simp [jEqStrList_self]), if_neg (by simp [jEqStr]),
    if_neg (by simp [jEqStrList_self])]
  have hl : ((done.map JVal.jb).length ≠ files.length) = False := by
    simp [hlen]
  simp only [hl, if_false, map_jtruthy_jb]
  rfl

-- =========================
-- C2: resume round-trip fidelity
-- =========================

/-- C2: resume round-trip fidelity.  Saving a session state (done flags of
inventory length, contents keyed inside the inventory, in-range cursor,
filter preference, legal mode) against inventory `files` and scan roots
`dirs` and loading with the same files, dirs, and rel_root returns exactly
the saved flags, contents, cursor, filter preference, and mode; loading the
same record with any different inventory, scan roots, or rel_root returns
no usable state (none). -/
theorem c2_resume_round_trip (files dirs : List String) (rel : String) (done : List Bool)
    (contents : List (String × String)) (cursor : Int) (sro : Bool) (mode ts : String)
    (hlen : done.length = files.length)
    (hkeys : ∀ kv ∈ contents, kv.1 ∈ files)
    (hc1 : -1 ≤ cursor) (hc2 : cursor ≤ (files.length : Int) - 1)
    (hmode : mode ∈ MODES) :
    (load_state (some (save_state_record files dirs rel done contents cursor sro mode ts))
        files dirs rel = some (done, contents, cursor, sro, mode))
    ∧ (∀ files2, files2 ≠ files →
        load_state (some (save_state_record files dirs rel done contents cursor sro mode ts))
          files2 dirs rel = none)
    ∧ (∀ dirs2, dirs2 ≠ dirs →
        load_state (some (save_state_record files dirs rel done contents cursor sro mode ts))
          files dirs2 rel = none)
    ∧ (∀ rel2, rel2 ≠ rel →
        load_state (some (save_state_record files dirs rel done contents cursor sro mode ts))
          files dirs rel2 = none) := by
  have escan : jgetD (save_state_fields files dirs rel done contents cursor sro mode ts)
      "scan_dirs_abs" JVal.null = JVal.ja (dirs.map JVal.js) := rfl
  have erel : jgetD (save_state_fields files dirs rel done contents cursor sro mode ts)
      "rel_root" JVal.null = JVal.js rel := rfl
  have efiles : jgetD (save_state_fields files dirs rel done contents cursor sro mode ts)
      "files" JVal.null = JVal.ja (files.map JVal.js) := rfl
  refine ⟨?_, ?_, ?_, ?_⟩
  · rw [load_state_of_save files dirs rel done contents cursor sro mode ts hlen]
    rw [filter_contents_id files contents hkeys, field_mode_of_mem mode hmode]
    have hclamp : max (-1) (min cursor ((files.length : Int) - 1)) = cursor := by omega
    rw [hclamp]
  · intro files2 hne
    have hred : load_state
        (some (save_state_record files dirs rel done contents cursor sro mode ts))
        files2 dirs rel =
        load_state_obj (save_state_fields files dirs rel done contents cursor sro mode ts)
          files2 dirs rel := rfl
    rw [hred]
    unfold load_state_obj
    rw [escan, erel, efiles]
    rw [if_neg (by simp [jEqStrList_self]), if_neg (by simp [jEqStr])]
    rw [if_pos (by simp [jEqStrList_iff]; exact fun h => hne h.symm)]
  · intro dirs2 hne
    have hred : load_state
        (some (save_state_record files dirs rel done contents cursor sro mode ts))
        files dirs2 rel =
        load_state_obj (save_state_fields files dirs rel done contents cursor sro mode ts)
          files dirs2 rel := rfl
    rw [hred]
    unfold load_state_obj
    rw [escan]
    rw [if_pos (by simp [jEqStrList_iff]; exact fun h => hne h.symm)]
  · intro rel2 hne
    have hred : load_state
        (some (save_state_record files dirs rel done contents cursor sro mode ts))
        files dirs rel2 =
        load_state_obj (save_state_fields files dirs rel done contents cursor sro mode ts)
          files dirs rel2 := rfl
    rw [hred]
    unfold load_state_obj
    rw [escan, erel]
    rw [if_neg (by simp [jEqStrList_self])]
    rw [if_pos (by simp [jEqStr]; exact fun h => hne h.symm)]

/-- Witness for C2 at a concrete session state: same-key load reproduces
the state, and a changed inventory, scan root, or rel_root each yield
none. -/
theorem c2_resume_round_trip_witness :
    (load_state (some (save_state_record ["a.py", "b.py"] ["/r"] "/r" [true, false]
        [("a.py", "X")] 0 true "paste" "T")) ["a.py", "b.py"] ["/r"] "/r" =
      some ([true, false], [("a.py", "X")], 0, true, "paste"))
    ∧ (load_state (some (save_state_record ["a.py", "b.py"] ["/r"] "/r" [true, false]
        [("a.py", "X")] 0 true "paste" "T")) ["a.py"] ["/r"] "/r" = none)
    ∧ (load_state (some (save_state_record ["a.py", "b.py"] ["/r"] "/r" [true, false]
        [("a.py", "X")] 0 true "paste" "T")) ["a.py", "b.py"] ["/q"] "/r" = none)
    ∧ (load_state (some (save_state_record ["a.py", "b.py"] ["/r"] "/r" [true, false]
        [("a.py", "X")] 0 true "paste" "T")) ["a.py", "b.py"] ["/r"] "/q" = none) := by
  have h := c2_resume_round_trip ["a.py", "b.py"] ["/r"] "/r" [true, false]
    [("a.py", "X")] 0 true "paste" "T" (by decide) (by decide) (by decide) (by decide)
    (by decide)
  exact ⟨h.1, h.2.1 ["a.py"] (by decide), h.2.2.1 ["/q"] (by decide),
    h.2.2.2 "/q" (by decide)⟩

-- =========================
-- C3: fail-soft on malformed checkpoint (corrected)
-- =========================

/-- Counterexample to C3 as stated: a stored record whose cursor field is a
string, whose filter field is a string, and whose mode is an unknown value
is NOT treated as absent — load returns a partially-defaulted usable state
(cursor -1, filter false, mode hybrid) instead of none. -/
theorem c3_malformed_not_absent :
    load_state (some (JVal.jo
      [("scan_dirs_abs", JVal.ja [JVal.js "/r"]),
       ("rel_root", JVal.js "/r"),
       ("files", JVal.ja [JVal.js "a.py"]),
       ("done", JVal.ja [JVal.jb false]),
       ("contents", JVal.jo []),
       ("cursor", JVal.js "oops"),
       ("show_remaining_only", JVal.js "x"),
       ("mode", JVal.js "bogus")]))
      ["a.py"] ["/r"] "/r" = some ([false], [], -1, false, "hybrid")
    ∧ some ([false], [], -1, false, "hybrid") ≠
      (none : Option (List Bool × List (String × String) × Int × Bool × String)) := by
  exact ⟨by decide, by decide⟩

/-- C3 as amended: load fails soft to none exactly on the structural
problems — missing/unreadable file, a document that is not an object,
mismatched scan roots, rel_root, or inventory, a done field that is not a
list or has the wrong length, and a contents field that is not a dict.
A type-mismatched cursor, filter preference, or mode field is instead
individually replaced by its default (-1, false, hybrid respectively) and a
usable state is still returned; an unknown mode string likewise falls back
to hybrid. -/
theorem c3_fail_soft_amended (files dirs : List String) (rel : String) :
    (load_state none files dirs rel = none)
    ∧ (∀ v : JVal, (∀ kvs, v ≠ JVal.jo kvs) → load_state (some v) files dirs rel = none)
    ∧ (∀ kvs, jEqStrList (jgetD kvs "scan_dirs_abs" JVal.null) dirs = false →
        load_state (some (JVal.jo kvs)) files dirs rel = none)
    ∧ (∀ kvs, jEqStrList (jgetD kvs "scan_dirs_abs" JVal.null) dirs = true →
        jEqStr (jgetD kvs "rel_root" JVal.null) rel = false →
        load_state (some (JVal.jo kvs)) files dirs rel = none)
    ∧ (∀ kvs, jEqStrList (jgetD kvs "scan_dirs_abs" JVal.null) dirs = true →
        jEqStr (jgetD kvs "rel_root" JVal.null) rel = true →
        jEqStrList (jgetD kvs "files" JVal.null) files = false →
        load_state (some (JVal.jo kvs)) files dirs rel = none)
    ∧ (∀ kvs, jEqStrList (jgetD kvs "scan_dirs_abs" JVal.null) dirs = true →
        jEqStr (jgetD kvs "rel_root" JVal.null) rel = true →
        jEqStrList (jgetD kvs "files" JVal.null) files = true →
        (∀ xs, jgetD kvs "done" JVal.null ≠ JVal.ja xs) →
        load_state (some (JVal.jo kvs)) files dirs rel = none)
    ∧ (∀ kvs xs, jEqStrList (jgetD kvs "scan_dirs_abs" JVal.null) dirs = true →
        jEqStr (jgetD kvs "rel_root" JVal.null) rel = true →
        jEqStrList (jgetD kvs "files" JVal.null) files = true →
        jgetD kvs "done" JVal.null = JVal.ja xs →
        xs.length ≠ files.length →
        load_state (some (JVal.jo kvs)) files dirs rel = none)
    ∧ (∀ kvs, jEqStrList (jgetD kvs "scan_dirs_abs" JVal.null) dirs = true →
        jEqStr (jgetD kvs "rel_root" JVal.null) rel = true →
        jEqStrList (jgetD kvs "files" JVal.null) files = true →
        (∀ cs, jgetD kvs "contents" JVal.null ≠ JVal.jo cs) →
        load_state (some (JVal.jo kvs)) files dirs rel = none)
    ∧ (∀ (done : List Bool) (contents : List (String × String))
        (cursorV showV modeV : JVal) (ts : String),
        done.length = files.length →
        jAsInt cursorV = none →
        (∀ b, showV ≠ JVal.jb b) →
        (∀ s, modeV ≠ JVal.js s) →
        load_state (some (JVal.jo
          [("generated_at", JVal.js ts),
           ("scan_dirs_abs", JVal.ja (dirs.map JVal.js)),
           ("rel_root", JVal.js rel),
           ("files", JVal.ja (files.map JVal.js)),
           ("done", JVal.ja (done.map JVal.jb)),
           ("cursor", cursorV),
           ("show_remaining_only", showV),
           ("mode", modeV),
           ("contents", JVal.jo (contents.map (fun kv => (kv.1, JVal.js kv.2))))]))
          files dirs rel =
        some (done, filter_contents files (contents.map (fun kv => (kv.1, JVal.js kv.2))),
          -1, false, MODE_HYBRID))
    ∧ (∀ s : String, s ∉ MODES → field_mode (JVal.js s) = MODE_HYBRID) := by
  refine ⟨rfl, ?_, ?_, ?_, ?_, ?_, ?_, ?_, ?_, ?_⟩
  · intro v hv
    cases v with
    | jo kvs => exact absurd rfl (hv kvs)
    | null => rfl
    | jb b => rfl
    | ji n => rfl
    | js s => rfl
    | ja xs => rfl
  · intro kvs h
    show load_state_obj kvs files dirs rel = none
    unfold load_state_obj
    rw [if_pos (by simp [h])]
  · intro kvs h1 h2
    show load_state_obj kvs files dirs rel = none
    unfold load_state_obj
    rw [if_neg (by simp [h1]), if_pos (by simp [h2])]
  · intro kvs h1 h2 h3
    show load_state_obj kvs files dirs rel = none
    unfold load_state_obj
    rw [if_neg (by simp [h1]), if_neg (by simp [h2]), if_pos (by simp [h3])]
  · intro kvs h1 h2 h3 hd
    show load_state_obj kvs files dirs rel = none
    unfold load_state_obj
    rw [if_neg (by simp [h1]), if_neg (by simp [h2]), if_neg (by simp [h3])]
    rcases hdone : jgetD kvs "done" JVal.null with _ | b | n | s | xs | cs
    · rfl
    · rfl
    · rfl
    · rfl
    · exact absurd hdone (hd xs)
    · rfl
  · intro kvs xs h1 h2 h3 hd hlen
    show load_state_obj kvs files dirs rel = none
    unfold load_state_obj
    rw [if_neg (by simp [h1]), if_neg (by simp [h2]), if_neg (by simp [h3]), hd]
    rcases hc : jgetD kvs "contents" JVal.null with _ | b | n | s | ys | cs
    · rfl
    · rfl
    · rfl
    · rfl
    · rfl
    · exact if_pos hlen
  · intro kvs h1 h2 h3 hc
    show load_state_obj kvs files dirs rel = none
    unfold load_state_obj
    rw [if_neg (by simp [h1]), if_neg (by simp [h2]), if_neg (by simp [h3])]
    rcases hcv : jgetD kvs "contents" JVal.null with _ | b | n | s | ys | cs
    · rcases hdv : jgetD kvs "done" JVal.null with _ | b2 | n2 | s2 | xs2 | cs2 <;> rfl
    · rcases hdv : jgetD kvs "done" JVal.null with _ | b2 | n2 | s2 | xs2 | cs2 <;> rfl
    · rcases hdv : jgetD kvs "done" JVal.null with _ | b2 | n2 | s2 | xs2 | cs2 <;> rfl
    · rcases hdv : jgetD kvs "done" JVal.null with _ | b2 | n2 | s2 | xs2 | cs2 <;> rfl
    · rcases hdv : jgetD kvs "done" JVal.null with _ | b2 | n2 | s2 | xs2 | cs2 <;> rfl
    · exact absurd hcv (hc cs)
  · intro done contents cursorV showV modeV ts hlen hcur hshow hmode
    have hred : load_state (some (JVal.jo
        [("generated_at", JVal.js ts),
         ("scan_dirs_abs", JVal.ja (dirs.map JVal.js)),
         ("rel_root", JVal.js rel),
         ("files", JVal.ja (files.map JVal.js)),
         ("done", JVal.ja (done.map JVal.jb)),
         ("cursor", cursorV),
         ("show_remaining_only", showV),
         ("mode", modeV),
         ("contents", JVal.jo (contents.map (fun kv => (kv.1, JVal.js kv.2))))]))
        files dirs rel =
        load_state_obj
          [("generated_at", JVal.js ts),
           ("scan_dirs_abs", JVal.ja (dirs.map JVal.js)),
           ("rel_root", JVal.js rel),
           ("files", JVal.ja (files.map JVal.js)),
           ("done", JVal.ja (done.map JVal.jb)),
           ("cursor", cursorV),
           ("show_remaining_only", showV),
           ("mode", modeV),
           ("contents", JVal.jo (contents.map (fun kv => (kv.1, JVal.js kv.2))))]
          files dirs rel := rfl
    rw [hred]
    unfold load_state_obj
    rw [show jgetD
        [("generated_at", JVal.js ts),
         ("scan_dirs_abs", JVal.ja (dirs.map JVal.js)),
         ("rel_root", JVal.js rel),
         ("files", JVal.ja (files.map JVal.js)),
         ("done", JVal.ja (done.map JVal.jb)),
         ("cursor", cursorV),
         ("show_remaining_only", showV),
         ("mode", modeV),
         ("contents", JVal.jo (contents.map (fun kv => (kv.1, JVal.js kv.2))))]
        "scan_dirs_abs" JVal.null = JVal.ja (dirs.map JVal.js) from rfl]
    rw [show jgetD
        [("generated_at", JVal.js ts),
         ("scan_dirs_abs", JVal.ja (dirs.map JVal.js)),
         ("rel_root", JVal.js rel),
         ("files", JVal.ja (files.map JVal.js)),
         ("done", JVal.ja (done.map JVal.jb)),
         ("cursor", cursorV),
         ("show_remaining_only", showV),
         ("mode", modeV),
         ("contents", JVal.jo (contents.map (fun kv => (kv.1, JVal.js kv.2))))]
        "rel_root" JVal.null = JVal.js rel from rfl]
    rw [show jgetD
        [("generated_at", JVal.js ts),
         ("scan_dirs_abs", JVal.ja (dirs.map JVal.js)),
         ("rel_root", JVal.js rel),
         ("files", JVal.ja (files.map JVal.js)),
         ("done", JVal.ja (done.map JVal.jb)),
         ("cursor", cursorV),
         ("show_remaining_only", showV),
         ("mode", modeV),
         ("contents", JVal.jo (contents.map (fun kv => (kv.1, JVal.js kv.2))))]
        "files" JVal.null = JVal.ja (files.map JVal.js) from rfl]
    rw [show jgetD
        [("generated_at", JVal.js ts),
         ("scan_dirs_abs", JVal.ja (dirs.map JVal.js)),
         ("rel_root", JVal.js rel),
         ("files", JVal.ja (files.map JVal.js)),
         ("done", JVal.ja (done.map JVal.jb)),
         ("cursor", cursorV),
         ("show_remaining_only", showV),
         ("mode", modeV),
         ("contents", JVal.jo (contents.map (fun kv => (kv.1, JVal.js kv.2))))]
        "done" JVal.null = JVal.ja (done.map JVal.jb) from rfl]
    rw [show jgetD
        [("generated_at", JVal.js ts),
         ("scan_dirs_abs", JVal.ja (dirs.map JVal.js)),
         ("rel_root", JVal.js rel),
         ("files", JVal.ja (files.map JVal.js)),
         ("done", JVal.ja (done.map JVal.jb)),
         ("cursor", cursorV),
         ("show_remaining_only", showV),
         ("mode", modeV),
         ("contents", JVal.jo (contents.map (fun kv => (kv.1, JVal.js kv.2))))]
        "contents" JVal.null = JVal.jo (contents.map (fun kv => (kv.1, JVal.js kv.2))) from rfl]
    rw [show jgetD
        [("generated_at", JVal.js ts),
         ("scan_dirs_abs", JVal.ja (dirs.map JVal.js)),
         ("rel_root", JVal.js rel),
         ("files", JVal.ja (files.map JVal.js)),
         ("done", JVal.ja (done.map JVal.jb)),
         ("cursor", cursorV),
         ("show_remaining_only", showV),
         ("mode", modeV),
         ("contents", JVal.jo (contents.map (fun kv => (kv.1, JVal.js kv.2))))]
        "cursor" (JVal.ji (-1)) = cursorV from rfl]
    rw [show jgetD
        [("generated_at", JVal.js ts),
         ("scan_dirs_abs", JVal.ja (dirs.map JVal.js)),
         ("rel_root", JVal.js rel),
         ("files", JVal.ja (files.map JVal.js)),
         ("done", JVal.ja (done.map JVal.jb)),
         ("cursor", cursorV),
         ("show_remaining_only", showV),
         ("mode", modeV),
         ("contents", JVal.jo (contents.map (fun kv => (kv.1, JVal.js kv.2))))]
        "show_remaining_only" (JVal.jb false) = showV from rfl]
    rw [show jgetD
        [("generated_at", JVal.js ts),
         ("scan_dirs_abs", JVal.ja (dirs.map JVal.js)),
         ("rel_root", JVal.js rel),
         ("files", JVal.ja (files.map JVal.js)),
         ("done", JVal.ja (done.map JVal.jb)),
         ("cursor", cursorV),
         ("show_remaining_only", showV),
         ("mode", modeV),
         ("contents", JVal.jo (contents.map (fun kv => (kv.1, JVal.js kv.2))))]
        "mode" (JVal.js MODE_HYBRID) = modeV from rfl]
    rw [if_neg (by simp [jEqStrList_self]), if_neg (by simp [jEqStr]),
      if_neg (by simp [jEqStrList_self])]
    have hl : ((done.map JVal.jb).length ≠ files.length) = False := by
      simp [hlen]
    simp only [hl, if_false, map_jtruthy_jb]
    have hfc : field_cursor cursorV = -1 := by
      unfold field_cursor
      rw [hcur]
    have hfs : field_show showV = false := by
      rcases showV with _ | b | n | s | xs | cs
      · rfl
      · exact absurd rfl (hshow b)
      · rfl
      · rfl
      · rfl
      · rfl
    have hfm : field_mode modeV = MODE_HYBRID := by
      rcases modeV with _ | b | n | s | xs | cs
      · rfl
      · rfl
      · rfl
      · exact absurd rfl (hmode s)
      · rfl
      · rfl
    rw [hfc, hfs, hfm]
    have hmin : max (-1 : Int) (min (-1) ((files.length : Int) - 1)) = -1 := by omega
    rw [hmin]
  · intro s h
    exact if_neg h

/-- Witness for C3's amended theorem: a record with wrong done length is
rejected, and the defaulting branch at concrete mismatched fields. -/
theorem c3_fail_soft_amended_witness :
    (load_state (some (JVal.jo
        [("scan_dirs_abs", JVal.ja [JVal.js "/r"]),
         ("rel_root", JVal.js "/r"),
         ("files", JVal.ja [JVal.js "a.py"]),
         ("done", JVal.ja [JVal.jb false, JVal.jb true]),
         ("contents", JVal.jo [])]))
        ["a.py"] ["/r"] "/r" = none)
    ∧ (load_state (some (JVal.jo
        [("generated_at", JVal.js "T"),
         ("scan_dirs_abs", JVal.ja [JVal.js "/r"]),
         ("rel_root", JVal.js "/r"),
         ("files", JVal.ja [JVal.js "a.py"]),
         ("done", JVal.ja [JVal.jb true]),
         ("cursor", JVal.js "oops"),
         ("show_remaining_only", JVal.ji 3),
         ("mode", JVal.null),
         ("contents", JVal.jo [("a.py", JVal.js "X")])]))
        ["a.py"] ["/r"] "/r" =
      some ([true], [("a.py", "X")], -1, false, MODE_HYBRID)) := by
  have h := c3_fail_soft_amended ["a.py"] ["/r"] "/r"
  refine ⟨?_, ?_⟩
  · exact h.2.2.2.2.2.2.1 [("scan_dirs_abs", JVal.ja [JVal.js "/r"]),
      ("rel_root", JVal.js "/r"),
      ("files", JVal.ja [JVal.js "a.py"]),
      ("done", JVal.ja [JVal.jb false, JVal.jb true]),
      ("contents", JVal.jo [])]
      [JVal.jb false, JVal.jb true] (by decide) (by decide) (by decide) rfl
      (by decide)
  · have h2 := h.2.2.2.2.2.2.2.2.1 [true] [("a.py", "X")] (JVal.js "oops") (JVal.ji 3)
      JVal.null "T" (by decide) (by decide)
      (by intro b hb; cases hb) (by intro s hs; cases hs)
    exact h2.trans (by decide)

-- =========================
-- C4 helper lemmas: string order, stable sort, join algebra
-- =========================

theorem charListLt_trans : ∀ a b c : List Char,
    charListLt a b = true → charListLt b c = true → charListLt a c = true := by
  intro a
  induction a with
  | nil =>
    intro b c hab hbc
    cases b with
    | nil => exact hbc
    | cons y ys =>
      cases c with
      | nil => simp [charListLt] at hbc
      | cons z zs => simp [charListLt]
  | cons x xs ih =>
    intro b c hab hbc
    cases b with
    | nil => simp [charListLt] at hab
    | cons y ys =>
      cases c with
      | nil => simp [charListLt] at hbc
      | cons z zs =>
        simp only [charListLt, Bool.or_eq_true, Bool.and_eq_true, decide_eq_true_eq] at hab hbc ⊢
        rcases hab with h1 | ⟨h1, h1t⟩ <;> rcases hbc with h2 | ⟨h2, h2t⟩
        · left
          omega
        · left
          rw [← h2]
          exact h1
        · left
          rw [h1]
          exact h2
        · right
          exact ⟨h1.trans h2, ih ys zs h1t h2t⟩

theorem charListLt_conn : ∀ a b : List Char,
    charListLt a b = false → charListLt b a = false → a = b := by
  intro a
  induction a with
  | nil =>
    intro b hab _
    cases b with
    | nil => rfl
    | cons y ys => simp [charListLt] at hab
  | cons x xs ih =>
    intro b hab hba
    cases b with
    | nil => simp [charListLt] at hba
    | cons y ys =>
      simp only [charListLt, Bool.or_eq_false_iff, Bool.and_eq_false_iff,
        decide_eq_false_iff_not] at hab hba
      obtain ⟨h1, h2⟩ := hab
      obtain ⟨h3, h4⟩ := hba
      have hxy : x = y := by
        have : x.toNat = y.toNat := by omega
        exact Char.eq_of_val_eq (by exact UInt32.toNat.inj this)
      rcases h2 with h2 | h2
      · exact absurd hxy (by simpa using h2)
      · rcases h4 with h4 | h4
        · exact absurd hxy.symm (by simpa using h4)
        · rw [hxy, ih ys (by simpa using h2) (by simpa using h4)]

theorem strLe_refl (a : String) : strLe a a = true := by
  simp [strLe]

theorem strLt_trans (a b c : String) (h1 : strLt a b = true) (h2 : strLt b c = true) :
    strLt a c = true := charListLt_trans a.data b.data c.data h1 h2

theorem strLe_trans (a b c : String) (h1 : strLe a b = true) (h2 : strLe b c = true) :
    strLe a c = true := by
  simp only [strLe, Bool.or_eq_true, decide_eq_true_eq] at h1 h2 ⊢
  rcases h1 with h1 | h1
  · rcases h2 with h2 | h2
    · exact Or.inl (strLt_trans a b c h1 h2)
    · rw [← h2]
      exact Or.inl h1
  · rw [h1]
    exact h2

theorem strLe_total (a b : String) : strLe a b = true ∨ strLe b a = true := by
  by_cases h1 : strLt a b = true
  · exact Or.inl (by simp [strLe, h1])
  · by_cases h2 : strLt b a = true
    · exact Or.inr (by simp [strLe, h2])
    · have : a.data = b.data :=
        charListLt_conn a.data b.data (by simpa [strLt] using h1) (by simpa [strLt] using h2)
      have heq : a = b := String.ext this
      exact Or.inl (by simp [strLe, heq])

theorem pairLe_total (a b : String × String) : pairLe a b = true ∨ pairLe b a = true := by
  by_cases h1 : strLt a.1 b.1 = true
  · exact Or.inl (by simp [pairLe, h1])
  · by_cases h2 : strLt b.1 a.1 = true
    · exact Or.inr (by simp [pairLe, h2])
    · have hd : a.1.data = b.1.data :=
        charListLt_conn a.1.data b.1.data (by simpa [strLt] using h1) (by simpa [strLt] using h2)
      have heq : a.1 = b.1 := String.ext hd
      rcases strLe_total a.2 b.2 with h | h
      · exact Or.inl (by simp [pairLe, heq, h])
      · exact Or.inr (by simp [pairLe, heq.symm, h])

theorem pairLe_trans (a b c : String × String) (h1 : pairLe a b = true)
    (h2 : pairLe b c = true) : pairLe a c = true := by
  simp only [pairLe, Bool.or_eq_true, Bool.and_eq_true, decide_eq_true_eq] at h1 h2 ⊢
  rcases h1 with h1 | ⟨h1, h1t⟩
  · rcases h2 with h2 | ⟨h2, h2t⟩
    · exact Or.inl (strLt_trans _ _ _ h1 h2)
    · rw [← h2]
      exact Or.inl h1
  · rcases h2 with h2 | ⟨h2, h2t⟩
    · rw [h1]
      exact Or.inl h2
    · exact Or.inr ⟨h1.trans h2, strLe_trans _ _ _ h1t h2t⟩

theorem pairLe_key (a b : String × String) (h : pairLe a b = true) :
    strLe a.1 b.1 = true := by
  simp only [pairLe, Bool.or_eq_true, Bool.and_eq_true, decide_eq_true_eq] at h
  rcases h with h | ⟨h, _⟩
  · simp [strLe, h]
  · simp [strLe, h]

theorem mem_sortedInsert (x : String × String) :
    ∀ (l : List (String × String)) (z : String × String),
      z ∈ sortedInsert x l → z = x ∨ z ∈ l := by
  intro l
  induction l with
  | nil =>
    intro z hz
    simp [sortedInsert] at hz
    exact Or.inl hz
  | cons y ys ih =>
    intro z hz
    by_cases h : pairLe x y = true
    · simp only [sortedInsert, if_pos h] at hz
      exact List.mem_cons.mp hz
    · simp only [sortedInsert, if_neg h] at hz
      rcases List.mem_cons.mp hz with hz1 | hz2
      · exact Or.inr (by simp [hz1])
      · rcases ih z hz2 with h2 | h2
        · exact Or.inl h2
        · exact Or.inr (by simp [h2])

theorem pairwise_sortedInsert (x : String × String) :
    ∀ (l : List (String × String)),
      l.Pairwise (fun a b => pairLe a b = true) →
      (sortedInsert x l).Pairwise (fun a b => pairLe a b = true) := by
  intro l
  induction l with
  | nil =>
    intro _
    simp [sortedInsert]
  | cons y ys ih =>
    intro hp
    rw [List.pairwise_cons] at hp
    obtain ⟨hy, hys⟩ := hp
    by_cases h : pairLe x y = true
    · simp only [sortedInsert, if_pos h]
      rw [List.pairwise_cons]
      refine ⟨?_, by rw [List.pairwise_cons]; exact ⟨hy, hys⟩⟩
      intro z hz
      rcases List.mem_cons.mp hz with hz1 | hz2
      · rw [hz1]
        exact h
      · exact pairLe_trans x y z h (hy z hz2)
    · simp only [sortedInsert, if_neg h]
      rw [List.pairwise_cons]
      constructor
      · intro z hz
        rcases mem_sortedInsert x ys z hz with h2 | h2
        · rw [h2]
          rcases pairLe_total x y with h3 | h3
          · exact absurd h3 (by simpa using h)
          · exact h3
        · exact hy z h2
      · exact ih hys

theorem pairwise_pySorted (l : List (String × String)) :
    (pySorted l).Pairwise (fun a b => pairLe a b = true) := by
  induction l with
  | nil => simp [pySorted]
  | cons x xs ih => exact pairwise_sortedInsert x (pySorted xs) ih

theorem endswith_nl_append_nl (b : String) : endswith_nl (b ++ "\n") = true := by
  simp [endswith_nl, String.data_append]

theorem join_group_parts (p body : String) :
    String.join ([header_line p, body]
      ++ (if body ≠ "" ∧ ¬ endswith_nl body then ["\n"] else [])
      ++ [footer_line p, SECTION_GAP]) = spec_bundle_group p body := by
  by_cases h : body ≠ "" ∧ ¬ endswith_nl body = true
  · rw [if_pos h]
    unfold spec_bundle_group
    rw [if_pos h]
    simp [join_cons, String.join, String.append_assoc, String.append_empty]
  · rw [if_neg h]
    unfold spec_bundle_group
    rw [if_neg h]
    simp [join_cons, String.join, String.append_assoc, String.append_empty]

theorem join_bundle_groups_eq (contents : List (String × String)) :
    ∀ files : List String,
      String.join (bundle_groups files contents) =
      String.join ((files.filter (fun p => (dget contents p).isSome)).map
        (fun p => spec_bundle_group p ((dget contents p).getD ""))) := by
  intro files
  induction files with
  | nil => rfl
  | cons p rest ih =>
    rcases hd : dget contents p with _ | body
    · simp only [bundle_groups, List.map_cons, List.flatten_cons, List.filter_cons, hd,
        Option.isSome_none, Bool.false_eq_true, if_false]
      rw [join_append]
      rw [show String.join ([] : List String) = "" from rfl, String.empty_append]
      exact ih
    · simp only [bundle_groups, List.map_cons, List.flatten_cons, List.filter_cons, hd,
        Option.isSome_some, if_true, Option.getD_some]
      rw [join_append, join_group_parts, join_cons]
      exact congrArg (fun s => spec_bundle_group p body ++ s) ih

theorem join_append3 (a b c d : List String) :
    String.join (a ++ b ++ c ++ d) = String.join (a ++ b ++ c) ++ String.join d := by
  rw [← join_append]

-- =========================
-- C4: bundle assembly (corrected)
-- =========================

/-- Counterexample to C4 as stated: for an acquired file whose content is
the empty string, the source emits the group without appending a line
terminator (the `if body` truthiness guard skips empty content), so the
assembled document differs from the claimed always-terminated form. -/
theorem c4_empty_content_not_terminated :
    build_bundle_text "/r" ["a.py"] [("a.py", "")] [] "T" =
      bundle_prefix "/r" [] "T" ++ spec_bundle_group "a.py" ""
    ∧ build_bundle_text "/r" ["a.py"] [("a.py", "")] [] "T" ≠
      bundle_prefix "/r" [] "T" ++ claimed_bundle_group "a.py" "" :=
  ⟨by decide, by decide⟩

/-- C4 as amended: the assembled document is the header-plus-skip-block
prefix followed, in inventory order, by one group for every path with
acquired content (paths without content are omitted entirely); each group
is begin-marker, content, end-marker, and a separating blank line, where
NONEMPTY content is guaranteed to end with a line terminator (one is
appended when missing) while empty content is emitted as-is; and the skip
block lists the skipped paths sorted lexicographically (each with its
reason). -/
theorem c4_bundle_assembly_amended (root : String) (files : List String)
    (contents skipped : List (String × String)) (now : String) :
    (build_bundle_text root files contents skipped now =
      bundle_prefix root skipped now
        ++ String.join ((files.filter (fun p => (dget contents p).isSome)).map
            (fun p => spec_bundle_group p ((dget contents p).getD ""))))
    ∧ (∀ p b, dget contents p = some b → b ≠ "" →
        ∃ t, spec_bundle_group p b =
            header_line p ++ t ++ (footer_line p ++ SECTION_GAP)
          ∧ endswith_nl t = true)
    ∧ (pySorted skipped).Pairwise (fun a b => strLe a.1 b.1 = true) := by
  refine ⟨?_, ?_, ?_⟩
  · unfold build_bundle_text bundle_prefix
    rw [join_append3]
    rw [join_bundle_groups_eq contents files]
  · intro p b _ hb
    unfold spec_bundle_group
    by_cases h : b ≠ "" ∧ ¬ endswith_nl b = true
    · rw [if_pos h]
      exact ⟨b ++ "\n", by rw [String.append_assoc], endswith_nl_append_nl b⟩
    · rw [if_neg h]
      have hend : endswith_nl b = true := by
        rcases not_and_or.mp h with h1 | h1
        · exact absurd hb (by simpa using h1)
        · simpa using h1
      exact ⟨b, by rw [String.append_assoc], hend⟩
  · exact (pairwise_pySorted skipped).imp (fun h => pairLe_key _ _ h)

/-- Witness for C4's amended theorem at the spec's own scenario: inventory
a.py then b.sql with contents "X\n" and "Y", plus an unsorted skip dict. -/
theorem c4_bundle_assembly_amended_witness :
    (build_bundle_text "/r" ["a.py", "b.sql"] [("a.py", "X\n"), ("b.sql", "Y")]
        [("b.py", "w2"), ("a.py", "w1")] "T" =
      bundle_prefix "/r" [("b.py", "w2"), ("a.py", "w1")] "T"
        ++ String.join ((["a.py", "b.sql"].filter
              (fun p => (dget [("a.py", "X\n"), ("b.sql", "Y")] p).isSome)).map
            (fun p => spec_bundle_group p
              ((dget [("a.py", "X\n"), ("b.sql", "Y")] p).getD ""))))
    ∧ (∃ t, spec_bundle_group "b.sql" "Y" =
          header_line "b.sql" ++ t ++ (footer_line "b.sql" ++ SECTION_GAP)
        ∧ endswith_nl t = true)
    ∧ (pySorted [("b.py", "w2"), ("a.py", "w1")]).Pairwise
        (fun a b => strLe a.1 b.1 = true) := by
  have h := c4_bundle_assembly_amended "/r" ["a.py", "b.sql"]
    [("a.py", "X\n"), ("b.sql", "Y")] [("b.py", "w2"), ("a.py", "w1")] "T"
  exact ⟨h.1, h.2.1 "b.sql" "Y" (by decide) (by decide), h.2.2⟩

-- =========================
-- C8 helper lemmas: dict facts and controller mutation shape
-- =========================

theorem dkeys_cons (kv : String × String) (rest : List (String × String)) :
    dkeys (kv :: rest) = kv.1 :: dkeys rest := rfl

theorem dget_isSome_iff_mem (d : List (String × String)) (k : String) :
    (dget d k).isSome = true ↔ k ∈ dkeys d := by
  induction d with
  | nil => simp [dget, dkeys]
  | cons kv rest ih =>
    by_cases h : kv.1 = k
    · simp [dget, h, dkeys_cons]
    · have e : dget (kv :: rest) k = dget rest k := by simp [dget, h]
      rw [e, ih, dkeys_cons, List.mem_cons]
      constructor
      · exact Or.inr
      · rintro (hm | hm)
        · exact absurd hm.symm h
        · exact hm

theorem any_fst_iff (d : List (String × String)) (k : String) :
    d.any (fun kv => kv.1 = k) = true ↔ k ∈ dkeys d := by
  simp [List.any_eq_true, dkeys]

theorem dkeys_dictSet_of_mem (d : List (String × String)) (k v : String)
    (h : k ∈ dkeys d) : dkeys (dictSet d k v) = dkeys d := by
  unfold dictSet
  rw [if_pos ((any_fst_iff d k).mpr h)]
  unfold dkeys
  rw [List.map_map]
  apply List.map_congr_left
  intro kv _
  by_cases hk : kv.1 = k
  · simp [hk]
  · simp [hk]

theorem dkeys_dictSet_of_not_mem (d : List (String × String)) (k v : String)
    (h : k ∉ dkeys d) : dkeys (dictSet d k v) = dkeys d ++ [k] := by
  unfold dictSet
  rw [if_neg (fun hc => h ((any_fst_iff d k).mp hc))]
  simp [dkeys]

theorem mem_dkeys_dictSet (d : List (String × String)) (k v a : String) :
    a ∈ dkeys (dictSet d k v) ↔ a ∈ dkeys d ∨ a = k := by
  by_cases h : k ∈ dkeys d
  · rw [dkeys_dictSet_of_mem d k v h]
    constructor
    · exact Or.inl
    · rintro (hm | rfl)
      · exact hm
      · exact h
  · rw [dkeys_dictSet_of_not_mem d k v h]
    simp

theorem nodup_dkeys_dictSet (d : List (String × String)) (k v : String)
    (h : (dkeys d).Nodup) : (dkeys (dictSet d k v)).Nodup := by
  by_cases hm : k ∈ dkeys d
  · rw [dkeys_dictSet_of_mem d k v hm]
    exact h
  · rw [dkeys_dictSet_of_not_mem d k v hm, List.nodup_append]
    refine ⟨h, List.nodup_singleton k, ?_⟩
    intro a ha hb
    simp at hb
    rw [hb] at ha
    exact hm ha

theorem run_action_shape (files : List String) (ar : String → Option String × String)
    (ansF : Bool) (cap : String) (st : SessionState) (action : String) (idx : Nat) :
    (run_action files ar ansF cap st action idx).1 = st
    ∨ ∃ c, (run_action files ar ansF cap st action idx).1 =
        { st with contents := dictSet st.contents (files.getD idx "") c,
                  done := st.done.set idx true, cursor := (idx : Int) } := by
  unfold run_action
  by_cases ha : action = "a"
  · rw [if_pos ha]
    rcases har : ar (files.getD idx "") with ⟨_ | c, why⟩
    · by_cases hm : st.mode = MODE_HYBRID
      · by_cases hf : ansF = true
        · exact Or.inr ⟨cap, by simp [hm, hf]⟩
        · exact Or.inl (by simp [hm, hf])
      · exact Or.inl (by simp [hm])
    · exact Or.inr ⟨c, rfl⟩
  · rw [if_neg ha]
    exact Or.inr ⟨cap, rfl⟩

theorem proceedTarget_shape (files : List String) (ar : String → Option String × String)
    (ao af : Bool) (cap : String) (st : SessionState) (ex : Option String) (idx : Nat) :
    ((proceedTarget files ar ao af cap st ex idx).1.done = st.done
      ∧ (proceedTarget files ar ao af cap st ex idx).1.contents = st.contents)
    ∨ (∃ i c, i < files.length
        ∧ (proceedTarget files ar ao af cap st ex idx).1.done = st.done.set i true
        ∧ (proceedTarget files ar ao af cap st ex idx).1.contents =
            dictSet st.contents (files.getD i "") c) := by
  by_cases h1 : files.length ≤ idx
  · unfold proceedTarget
    rw [if_pos h1]
    exact Or.inl ⟨rfl, rfl⟩
  · by_cases h2 : (st.done.getD idx false && !ao) = true
    · unfold proceedTarget
      rw [if_neg h1, if_pos h2]
      exact Or.inl ⟨rfl, rfl⟩
    · have hg : st.done.getD idx false = false ∨ ao = true := by
        cases hb : st.done.getD idx false
        · exact Or.inl rfl
        · cases hao : ao
          · exact absurd (by rw [hb, hao]; rfl) h2
          · exact Or.inr rfl
      rw [proceedTarget_exec files ar ao af cap st ex idx (by omega) hg]
      rcases run_action_shape files ar af cap { st with next_action_override := none } _ idx
        with h | ⟨c, h⟩
      · exact Or.inl ⟨by rw [h], by rw [h]⟩
      · exact Or.inr ⟨idx, c, by omega, by rw [h], by rw [h]⟩

theorem main_step_shape (files : List String) (ar : String → Option String × String)
    (aq ao af : Bool) (cap : String) (st : SessionState) (cmd : String) :
    ((main_step files ar aq ao af cap st cmd).1.done = st.done
      ∧ (main_step files ar aq ao af cap st cmd).1.contents = st.contents)
    ∨ (∃ i c, i < files.length
        ∧ (main_step files ar aq ao af cap st cmd).1.done = st.done.set i true
        ∧ (main_step files ar aq ao af cap st cmd).1.contents =
            dictSet st.contents (files.getD i "") c) := by
  unfold main_step
  by_cases h1 : lowerStr cmd = "q"
  · rw [if_pos h1]
    by_cases hq : (!(((files.zip st.done).filter (fun pd => !pd.2)).map (fun pd => pd.1)).isEmpty
        && !aq) = true
    · rw [if_pos hq]
      exact Or.inl ⟨rfl, rfl⟩
    · rw [if_neg hq]
      exact Or.inl ⟨rfl, rfl⟩
  · rw [if_neg h1]
    by_cases h2 : lowerStr cmd = "r"
    · rw [if_pos h2]
      exact Or.inl ⟨rfl, rfl⟩
    · rw [if_neg h2]
      by_cases h3 : lowerStr cmd = "m"
      · rw [if_pos h3]
        exact Or.inl ⟨rfl, rfl⟩
      · rw [if_neg h3]
        by_cases h4 : lowerStr cmd = "a"
        · rw [if_pos h4]
          exact Or.inl ⟨rfl, rfl⟩
        · rw [if_neg h4]
          by_cases h5 : lowerStr cmd = "p"
          · rw [if_pos h5]
            exact Or.inl ⟨rfl, rfl⟩
          · rw [if_neg h5]
            by_cases h6 : ((pySplit cmd).length = 2
                && (lowerStr ((pySplit cmd).getD 0 "") = "a"
                  || lowerStr ((pySplit cmd).getD 0 "") = "p")
                && pyIsDigit ((pySplit cmd).getD 1 "")) = true
            · rw [if_pos h6]
              exact proceedTarget_shape files ar ao af cap st _ _
            · rw [if_neg h6]
              by_cases h7 : cmd = ""
              · rw [if_pos h7]
                rcases hni : next_undone_index st.done
                    (if st.cursor ≥ 0 then ((st.cursor + 1) % (st.done.length : Int)).toNat
                      else 0) with _ | idx
                · exact Or.inl ⟨rfl, rfl⟩
                · exact proceedTarget_shape files ar ao af cap st _ _
              · rw [if_neg h7]
                by_cases h8 : (!pyIsDigit cmd) = true
                · rw [if_pos h8]
                  exact Or.inl ⟨rfl, rfl⟩
                · rw [if_neg h8]
                  exact proceedTarget_shape files ar ao af cap st _ _

theorem inv_preserved_step (files : List String) (hnodup : files.Nodup)
    (st : SessionState) (hinv : InvC8 files st) (ar : String → Option String × String)
    (aq ao af : Bool) (cap cmd : String) :
    InvC8 files (main_step files ar aq ao af cap st cmd).1 := by
  obtain ⟨hlen, hnd, hsub, hiff⟩ := hinv
  rcases main_step_shape files ar aq ao af cap st cmd with ⟨hd, hc⟩ | ⟨i, c, hi, hd, hc⟩
  · exact ⟨by rw [hd, hlen], by rw [hc]; exact hnd, by rw [hc]; exact hsub,
      by intro j hj; rw [hc, hd]; exact hiff j hj⟩
  · have hgetD : files.getD i "" = files[i] := List.getD_eq_getElem files "" hi
    have hset_self : (st.done.set i true).getD i false = true := by
      rw [List.getD_eq_getElem?_getD, List.getElem?_set_self (by omega : i < st.done.length)]
      rfl
    have hset_ne : ∀ j, j ≠ i → (st.done.set i true).getD j false = st.done.getD j false := by
      intro j hji
      rw [List.getD_eq_getElem?_getD, List.getElem?_set_ne (fun he => hji he.symm),
        ← List.getD_eq_getElem?_getD]
    refine ⟨?_, ?_, ?_, ?_⟩
    · rw [hd, List.length_set, hlen]
    · rw [hc]
      exact nodup_dkeys_dictSet _ _ _ hnd
    · rw [hc]
      intro k hk
      rcases (mem_dkeys_dictSet _ _ _ k).mp hk with hk2 | hk2
      · exact hsub k hk2
      · rw [hk2, hgetD]
        exact List.getElem_mem hi
    · intro j hj
      rw [hc, hd, mem_dkeys_dictSet]
      by_cases hij : j = i
      · subst hij
        rw [hset_self]
        constructor
        · intro _
          rfl
        · intro _
          exact Or.inr hgetD.symm
      · rw [hset_ne j hij]
        have hne : files[j] ≠ files.getD i "" := by
          rw [hgetD]
          intro he
          have hfin : (⟨j, hj⟩ : Fin files.length) = ⟨i, hi⟩ :=
            (List.Nodup.get_inj_iff hnodup).mp (by simpa using he)
          exact hij (by simpa using hfin)
        constructor
        · rintro (hm | hm)
          · exact (hiff j hj).mp hm
          · exact absurd hm hne
        · intro hm
          exact Or.inl ((hiff j hj).mpr hm)

theorem inv_preserved_resume (files dirs : List String) (rel ts : String)
    (st : SessionState) (d : List Bool) (c : List (String × String)) (cur : Int)
    (sh : Bool) (m : String) (hinv : InvC8 files st)
    (hload : load_state (some (save_state_record files dirs rel st.done st.contents
        st.cursor st.show_remaining_only st.mode ts)) files dirs rel =
      some (d, c, cur, sh, m)) :
    InvC8 files ⟨d, c, cur, sh, m, none⟩ := by
  obtain ⟨hlen, hnd, hsub, hiff⟩ := hinv
  have heval := load_state_of_save files dirs rel st.done st.contents st.cursor
    st.show_remaining_only st.mode ts hlen
  rw [heval] at hload
  have hkv : ∀ kv ∈ st.contents, kv.1 ∈ files := by
    intro kv hkv
    exact hsub kv.1 (List.mem_map.mpr ⟨kv, hkv, rfl⟩)
  rw [filter_contents_id files st.contents hkv] at hload
  have hload2 := Option.some.inj hload
  obtain ⟨hd2, hc2, _, _, _⟩ : st.done = d ∧ st.contents = c ∧
      max (-1) (min st.cursor ((files.length : Int) - 1)) = cur ∧
      st.show_remaining_only = sh ∧ field_mode (JVal.js st.mode) = m := by
    simpa [Prod.ext_iff] using hload2
  exact ⟨by rw [← hd2, hlen], by rw [← hc2]; exact hnd, by rw [← hc2]; exact hsub,
    by intro j hj; rw [← hc2]; show _ ↔ d.getD j false = true; rw [← hd2]; exact hiff j hj⟩

theorem reachable_inv (files : List String) (st : SessionState)
    (h : Reachable files st) (hnodup : files.Nodup) : InvC8 files st := by
  induction h with
  | fresh mode =>
    refine ⟨by simp, by simp [dkeys], by simp [dkeys], ?_⟩
    intro i hi
    have hrep : (List.replicate files.length false).getD i false = false := by
      rw [List.getD_eq_getElem?_getD, List.getElem?_replicate]
      split <;> rfl
    simp [dkeys, hrep]
  | step ar aq ao af cap cmd st hst ih =>
    exact inv_preserved_step files hnodup st ih ar aq ao af cap cmd
  | resume dirs rel ts st d c cur sh m hst hload ih =>
    exact inv_preserved_resume files dirs rel ts st d c cur sh m ih hload

theorem countP_parallel (files : List String) : ∀ (done : List Bool),
    done.length = files.length → ∀ (p : String → Bool),
    (∀ i (h : i < files.length), p files[i] = done.getD i false) →
    files.countP p = done.count true := by
  induction files with
  | nil =>
    intro done hlen p _
    cases done with
    | nil => rfl
    | cons b bs => simp at hlen
  | cons f fs ih =>
    intro done hlen p hp
    cases done with
    | nil => simp at hlen
    | cons b bs =>
      rw [List.countP_cons, List.count_cons]
      have h0 : p f = b := by
        have := hp 0 (by simp)
        simpa using this
      have ht : fs.countP p = bs.count true := by
        apply ih bs (by simpa using hlen) p
        intro i h
        have := hp (i + 1) (by simpa using Nat.succ_lt_succ h)
        simpa using this
      rw [ht, h0]
      congr 1
      cases b <;> simp

-- =========================
-- C8: acquired-iff-content invariant
-- =========================

/-- C8: in every session state reachable through the controller's
operations (fresh start, loop iterations covering successful acquisitions
and mode/filter toggles, and reloading a checkpoint the controller itself
saved), a path holds content in the contents mapping exactly when its done
flag is set, and the number of set flags equals the number of paths with
stored content. -/
theorem c8_acquired_iff_content (files : List String) (st : SessionState)
    (hreach : Reachable files st) (hnodup : files.Nodup) :
    st.done.length = files.length
    ∧ (∀ i (h : i < files.length),
        ((dget st.contents files[i]).isSome = true ↔ st.done.getD i false = true))
    ∧ st.done.count true = st.contents.length := by
  obtain ⟨hlen, hnd, hsub, hiff⟩ := reachable_inv files st hreach hnodup
  refine ⟨hlen, ?_, ?_⟩
  · intro i h
    rw [dget_isSome_iff_mem]
    exact hiff i h
  · have hkeys_len : st.contents.length = (dkeys st.contents).length := by simp [dkeys]
    rw [hkeys_len]
    have hperm : (files.filter (fun x => decide (x ∈ dkeys st.contents))).Perm
        (dkeys st.contents) := by
      rw [List.perm_ext_iff_of_nodup (List.Nodup.filter _ hnodup) hnd]
      intro a
      simp only [List.mem_filter, decide_eq_true_eq]
      constructor
      · rintro ⟨_, ha⟩
        exact ha
      · intro ha
        exact ⟨hsub a ha, ha⟩
    rw [← hperm.length_eq, ← List.countP_eq_length_filter]
    symm
    apply countP_parallel files st.done hlen
    intro i h
    by_cases hm : files[i] ∈ dkeys st.contents
    · rw [(hiff i h).mp hm]
      simp [hm]
    · have hng : st.done.getD i false ≠ true := fun ht => hm ((hiff i h).mpr ht)
      cases hgd : st.done.getD i false
      · simp [hm]
      · exact absurd hgd hng

/-- Witness for C8: after one acquisition step from a fresh two-file
session, the set-flag count equals the stored-content count and the
per-index equivalence holds. -/
theorem c8_acquired_iff_content_witness :
    (["a.py", "b.py"] : List String).Nodup ∧
    ((main_step ["a.py", "b.py"] (fun _ => (some "X", "ok(utf-8)")) false false false "C"
        ⟨List.replicate 2 false, [], -1, false, "hybrid", none⟩ "0").1.done.count true =
      (main_step ["a.py", "b.py"] (fun _ => (some "X", "ok(utf-8)")) false false false "C"
        ⟨List.replicate 2 false, [], -1, false, "hybrid", none⟩ "0").1.contents.length) := by
  have hr : Reachable ["a.py", "b.py"]
      (main_step ["a.py", "b.py"] (fun _ => (some "X", "ok(utf-8)")) false false false "C"
        ⟨List.replicate 2 false, [], -1, false, "hybrid", none⟩ "0").1 :=
    Reachable.step (fun _ => (some "X", "ok(utf-8)")) false false false "C" "0"
      ⟨List.replicate 2 false, [], -1, false, "hybrid", none⟩
      (Reachable.fresh "hybrid")
  exact ⟨by decide,
    (c8_acquired_iff_content ["a.py", "b.py"] _ hr (by decide)).2.2⟩
